import Mathlib

/-!
Verification of the ReplyMate backend reply-generation pipeline.

Strings are modelled as `List Char` (Lean `String` is a wrapper around
that list).  JavaScript `toLowerCase` is modelled on the ASCII range
(`Char.toLower`), which covers every pattern used by the source; the
`\w` word-character class of JavaScript regexes is exactly
`[A-Za-z0-9_]`, and `String.prototype.trim` strips the JS WhiteSpace
and LineTerminator code points.
-/

/-- Word character, the JavaScript regex class backslash-w: ASCII letters,
digits and underscore, stated on the code point. -/
def wordChar (c : Char) : Bool :=
  decide ((65 ≤ c.toNat ∧ c.toNat ≤ 90) ∨ (97 ≤ c.toNat ∧ c.toNat ≤ 122) ∨
    (48 ≤ c.toNat ∧ c.toNat ≤ 57) ∨ c.toNat = 95)

/-- Word-character test lifted to an optional character; the absence of a
character (string edge) counts as a non-word position, as in JS. -/
def wordCharQ : Option Char → Bool
  | none => false
  | some c => wordChar c

/-- Characters treated as whitespace by JavaScript trim: the WhiteSpace
production plus the LineTerminator production of ECMA-262. -/
def jsWS (c : Char) : Bool :=
  c == ' ' || c == '\t' || c == '\n' || c == '\r' || c == '\x0b' || c == '\x0c' ||
  c == '\u00A0' || c == '\uFEFF' || c == '\u1680' ||
  ('\u2000' ≤ c && c ≤ '\u200A') ||
  c == '\u2028' || c == '\u2029' || c == '\u202F' || c == '\u205F' || c == '\u3000'

/-- JavaScript String.prototype.trim on a character list: drop leading and
trailing whitespace. -/
def jsTrim (s : List Char) : List Char :=
  (((s.dropWhile jsWS).reverse.dropWhile jsWS)).reverse

/-- Characters matched by an un-flagged JavaScript regex dot: anything but a
line terminator. -/
def jsDot (c : Char) : Bool :=
  !(c == '\n' || c == '\r' || c == '\u2028' || c == '\u2029')

/-- Case-insensitive literal match of a (lowercase) pattern against a prefix
of the text, as a JS regex literal with the i flag does. -/
def litMatch : List Char → List Char → Bool
  | [], _ => true
  | _ :: _, [] => false
  | p :: ps, c :: cs => (c.toLower == p) && litMatch ps cs

/-- Truthiness of an optional JS string value: undefined and the empty
string are falsy. -/
def jsTruthy : Option String → Bool
  | none => false
  | some s => !(s == "")

/-- JS a short-circuit-or b for optional strings (used for field defaulting). -/
def jsOrOpt (a b : Option String) : Option String :=
  if jsTruthy a then a else b

/-- JS a short-circuit-or for an optional string against a string default. -/
def jsOr (a : Option String) (b : String) : String :=
  match a with
  | none => b
  | some s => if s == "" then b else s

/-- Character-list form of a string literal. -/
def chars (s : String) : List Char := s.data

/-- One global case-insensitive replacement rule: an ordered alternation of
literal phrases, an optional surrounding word-boundary pair, and the
replacement text.  This is the shape of every regex used by
safetyCheckAgent (backend/agents/safetyCheckAgent.js). -/
structure Rule where
  alts : List (List Char)
  wb : Bool
  rep : List Char

/-- JS word boundary between two adjacent (optional) characters. -/
def bdry (x y : Option Char) : Bool := wordCharQ x != wordCharQ y

/-- Does alternative a match the text s at its head, with the rule's
boundary requirements?  prev is the character just before s. -/
def predM (pat : Rule) (prev : Option Char) (s a : List Char) : Bool :=
  litMatch a s &&
    (!pat.wb ||
      (bdry prev s.head? && bdry ((s.take a.length).getLast?) ((s.drop a.length).head?)))

/-- First alternative of the rule matching at the head of s (JS alternation
tries alternatives left to right). -/
def findM (pat : Rule) (prev : Option Char) (s : List Char) : Option (List Char) :=
  pat.alts.find? (predM pat prev s)

/-- Does the pattern of the rule match anywhere in s (JS regex test), with
prev the character preceding s. -/
def hasM (pat : Rule) (prev : Option Char) (s : List Char) : Bool :=
  match s with
  | [] => false
  | c :: cs => (findM pat prev (c :: cs)).isSome || hasM pat (some c) cs

/-- Fuelled form of the global replacement scan of JS
String.prototype.replace with the g flag: find the leftmost match, emit the
replacement, continue after the matched text (boundary context for later
matches is the original text).  The fuel argument only serves structural
recursion; it is set to the text length by replaceScan below and never runs
out, since every alternative is nonempty and one character is consumed per
step.  In the match branch the scan continues on cs.drop (a.length - 1),
which equals (c :: cs).drop a.length because a is nonempty. -/
def replaceScanF (ru : Rule) : Nat → Option Char → List Char → List Char
  | 0, _, s => s
  | fuel + 1, prev, s =>
    match s with
    | [] => []
    | c :: cs =>
      match findM ru prev (c :: cs) with
      | some a =>
          ru.rep ++ replaceScanF ru fuel (((c :: cs).take a.length).getLast?) (cs.drop (a.length - 1))
      | none => c :: replaceScanF ru fuel (some c) cs

/-- Global replacement: JS text.replace(pattern-g, rep). -/
def replaceScan (ru : Rule) (prev : Option Char) (s : List Char) : List Char :=
  replaceScanF ru s.length prev s

/-- Off-platform contact rule of safetyCheckAgent:
text.replace(whatsapp|telegram|paypal|email me|call me|text me, gi). -/
def offPlatformRule : Rule :=
  { alts := [chars "whatsapp", chars "telegram", chars "paypal",
             chars "email me", chars "call me", chars "text me"]
    wb := false
    rep := chars "eBay messages" }

/-- Fault-admission rule of safetyCheckAgent: the apostrophe quantifier of
it'?s is expanded into the two alternatives the regex engine tries. -/
def admissionRule : Rule :=
  { alts := [chars "it's our fault", chars "its our fault",
             chars "we messed up", chars "our mistake"]
    wb := true
    rep := chars "I’m sorry for the inconvenience" }

/-- Absolute-guarantee rule of safetyCheckAgent. -/
def guaranteeRule : Rule :=
  { alts := [chars "guarantee", chars "definitely", chars "100% sure"]
    wb := true
    rep := chars "will do our best to" }

/-- Core of backend/agents/safetyCheckAgent.js on character lists: trim, then
the three global replacements in source order. -/
def safetyFilter (draft : List Char) : List Char :=
  replaceScan guaranteeRule none
    (replaceScan admissionRule none
      (replaceScan offPlatformRule none (jsTrim draft)))

/-- Output record of safetyCheckAgent. -/
structure SafetyOut where
  agent : String
  reply : String
deriving DecidableEq, Repr

/-- backend/agents/safetyCheckAgent.js. -/
def safetyCheckAgent (draft : String) : SafetyOut :=
  { agent := "safety_check", reply := String.mk (safetyFilter draft.data) }

/-! Classifier pattern language.  Every regex in the two classifyIntent
pattern tables is a sequence of lowercase literal runs, alternation groups
of literals, unbounded gaps (dot-star), single wildcard dots, and optional
wildcards (dot-question); this token language covers them exactly. -/

/-- One token of a classifier regex. -/
inductive Tok where
  | lit : List (List Char) → Tok
  | gap : Tok
  | anyOne : Tok
  | anyOpt : Tok

/-- Fuelled prefix matcher for a token sequence, existential in gap widths as
a regex test is.  The fuel only serves structural recursion and is set
large enough by reTest to never run out. -/
def matchToksF : Nat → List Tok → List Char → Bool
  | 0, _, _ => false
  | fuel + 1, toks, s =>
    match toks with
    | [] => true
    | Tok.lit alts :: r => alts.any (fun a => litMatch a s && matchToksF fuel r (s.drop a.length))
    | Tok.gap :: r =>
      matchToksF fuel r s ||
        (match s with
         | [] => false
         | c :: cs => jsDot c && matchToksF fuel (Tok.gap :: r) cs)
    | Tok.anyOne :: r =>
      (match s with
       | [] => false
       | c :: cs => jsDot c && matchToksF fuel r cs)
    | Tok.anyOpt :: r =>
      matchToksF fuel r s ||
        (match s with
         | [] => false
         | c :: cs => jsDot c && matchToksF fuel r cs)

/-- Does the token sequence match starting at some position of s
(JS RegExp.prototype.test)? -/
def reTest (toks : List Tok) (s : List Char) : Bool :=
  matchToksF (s.length + toks.length + 1) toks s ||
    (match s with
     | [] => false
     | _ :: cs => reTest toks cs)

/-- Literal token. -/
def l1 (x : String) : Tok := Tok.lit [chars x]

/-- Alternation-group token. -/
def lA (xs : List String) : Tok := Tok.lit (xs.map chars)

/-- Classification result record: intent, confidence, risk. -/
structure Cls where
  intent : String
  confidence : Nat
  risk : String
deriving DecidableEq, Repr

/-- High-risk intent list shared by both classifier versions. -/
def highRiskIntents : List String := ["legal_threat", "fraud_claim", "off_platform"]

/-- Medium-risk intent list shared by both classifier versions. -/
def mediumRiskIntents : List String := ["return", "refund", "damaged_item", "cancellation"]

/-- Risk tier as the fixed membership mapping on the winning intent. -/
def riskOf (intent : String) : String :=
  if highRiskIntents.contains intent then "high"
  else if mediumRiskIntents.contains intent then "medium"
  else "low"

namespace ReplyRoute

/-- The ordered intent/pattern table of classifyIntent in routes/reply.js
(the full twelve-intent version). -/
def patterns : List (String × List (List Tok)) :=
  [ ("tracking",
      [[l1 "track"],
       [l1 "where", Tok.gap, lA ["order", "package", "item", "shipment"]],
       [l1 "shipping status"],
       [l1 "when", Tok.gap, lA ["arrive", "deliver", "ship", "get"]],
       [l1 "hasn", Tok.anyOne, l1 "t ", lA ["arrived", "shipped"]],
       [l1 "not received"],
       [l1 "delivery date"]]),
    ("return",
      [[l1 "return"],
       [l1 "send", Tok.gap, lA ["back", "it back"]],
       [l1 "want", Tok.gap, l1 "refund"],
       [l1 "return ", lA ["policy", "label", "request"]],
       [l1 "exchange"]]),
    ("refund",
      [[l1 "refund"],
       [l1 "money back"],
       [l1 "charge", Tok.gap, l1 "back"],
       [l1 "full refund"],
       [l1 "partial refund"],
       [l1 "reimburse"]]),
    ("damaged_item",
      [[l1 "damaged"], [l1 "broken"], [l1 "cracked"], [l1 "dent"], [l1 "scratch"],
       [l1 "defective"], [l1 "not working"],
       [l1 "doesn", Tok.anyOne, l1 "t work"],
       [l1 "faulty"], [l1 "arrived broken"]]),
    ("shipping_inquiry",
      [[l1 "shipping ", lA ["cost", "time", "method", "option"]],
       [l1 "how long", Tok.gap, lA ["ship", "deliver"]],
       [l1 "expedit"], [l1 "express ship"], [l1 "free shipping"],
       [l1 "international ship"]]),
    ("item_question",
      [[l1 "compatible"],
       [l1 "does ", lA ["it", "this"], l1 " ", lA ["work", "fit", "come"]],
       [l1 "what", Tok.gap, lA ["size", "color", "dimension", "weight", "material"]],
       [l1 "is ", lA ["it", "this"], l1 " ", lA ["new", "genuine", "authentic", "original"]],
       [l1 "specs"], [l1 "specification"]]),
    ("discount_request",
      [[l1 "discount"], [l1 "lower price"], [l1 "best price"], [l1 "bulk"],
       [l1 "deal"], [l1 "coupon"], [l1 "offer"], [l1 "negotiate"]]),
    ("cancellation",
      [[l1 "cancel"],
       [l1 "don", Tok.anyOne, l1 "t want"],
       [l1 "changed my mind"],
       [l1 "stop", Tok.gap, l1 "order"]]),
    ("positive_feedback",
      [[l1 "thank"],
       [l1 "great ", lA ["seller", "service", "product", "item"]],
       [l1 "love ", lA ["it", "this"]],
       [l1 "perfect"], [l1 "excellent"], [l1 "amazing"], [l1 "happy with"],
       [l1 "well packed"], [l1 "fast ship"]]),
    ("legal_threat",
      [[l1 "lawyer"], [l1 "attorney"], [l1 "legal action"], [l1 "sue you"],
       [l1 "court"], [l1 "trading standards"], [l1 "consumer rights"],
       [l1 "report you"], [l1 "bbb"], [l1 "complaint"]]),
    ("fraud_claim",
      [[l1 "scam"], [l1 "fraud"], [l1 "fake"], [l1 "counterfeit"],
       [l1 "not ", lA ["genuine", "authentic", "real"]],
       [l1 "knock", Tok.anyOpt, l1 "off"],
       [l1 "replica"]]),
    ("off_platform",
      [[l1 "whatsapp"],
       [l1 "paypal", Tok.gap, l1 "direct"],
       [l1 "call me"], [l1 "text me"],
       [l1 "email", Tok.gap, l1 "direct"],
       [l1 "outside", Tok.gap, l1 "ebay"],
       [l1 "off", Tok.gap, l1 "ebay"],
       [l1 "my", Tok.gap, l1 "number"],
       [l1 "phone"]]) ]

/-- Number of patterns of the entry that test positive on msg. -/
def scoreOf (ps : List (List Tok)) (msg : List Char) : Nat :=
  ps.countP (fun p => reTest p msg)

/-- The mutable best-intent/best-score loop of classifyIntent as a fold:
starts at general with score 0 and updates only on a strictly greater
score. -/
def pickBest (tbl : List (String × Nat)) : String × Nat :=
  tbl.foldl (fun b e => if b.2 < e.2 then e else b) ("general", 0)

/-- classifyIntent of routes/reply.js: lowercase the message, score each
intent, keep the first strictly-best, then derive confidence and risk. -/
def classifyIntent (message : String) : Cls :=
  let msg := message.data.map Char.toLower
  let best := pickBest (patterns.map (fun e => (e.1, scoreOf e.2 msg)))
  let highRisk := highRiskIntents.contains best.1
  let mediumRisk := mediumRiskIntents.contains best.1
  { intent := best.1
    confidence := min (best.2 * 30 + 20) 95
    risk := if highRisk then "high" else if mediumRisk then "medium" else "low" }

/-- Classifier algorithm as the specification states it: every intent is
scored by counting matching patterns on the lowercased input, the
maximum score wins with ties broken by the fixed table order, a zero
maximum yields the default general result, confidence is
min (score * 30 + 20) 95 and risk is the fixed membership mapping. -/
def specClassify (message : String) : Cls :=
  let msg := message.data.map Char.toLower
  let scored := patterns.map (fun e => (e.1, scoreOf e.2 msg))
  let m := (scored.map Prod.snd).foldr max 0
  if m = 0 then { intent := "general", confidence := 20, risk := "low" }
  else
    match scored.find? (fun e => e.2 == m) with
    | some e => { intent := e.1, confidence := min (m * 30 + 20) 95, risk := riskOf e.1 }
    | none => { intent := "general", confidence := 20, risk := "low" }

end ReplyRoute

namespace ReplyRoute

/-- Rule-based template lookup of routes/reply.js: substitute the seller
signature and return the fixed template for the intent, or null. -/
def getRuleBasedReply (intent : String) (sellerName businessName : Option String) : Option String :=
  let sign := jsOr sellerName (jsOr businessName "The Seller")
  let templates : List (String × String) :=
    [ ("tracking",
        "Hi there,\n\nThank you for your message. Your order has been dispatched and is on its way to you. You can find your tracking information in your eBay purchase history or notifications — please allow up to 24 hours for tracking to become active after shipping.\n\nIf you have any other questions, please don't hesitate to ask.\n\nBest regards,\n" ++ sign),
      ("positive_feedback",
        "Hi,\n\nThank you so much for the kind words — that really means a lot! I'm glad you're happy with your purchase. If you ever need anything in the future, don't hesitate to reach out.\n\nWishing you all the best,\n" ++ sign),
      ("shipping_inquiry",
        "Hi there,\n\nThank you for your interest! Shipping details including estimated delivery times and costs are listed on each item's listing page. Standard shipping typically takes 3-5 business days domestically.\n\nIf you have any specific questions about shipping to your location, I'm happy to help.\n\nBest regards,\n" ++ sign),
      ("item_question",
        "Hi,\n\nThank you for your question! All product details, specifications, and compatibility information are listed in the item description. I'd recommend checking there first.\n\nIf you need any clarification or have specific questions not covered in the listing, please let me know and I'll be happy to help.\n\nBest regards,\n" ++ sign),
      ("off_platform",
        "Hi,\n\nThank you for your message. For the protection of both buyers and sellers, I handle all communication and transactions through eBay's official messaging and checkout system.\n\nPlease feel free to continue our conversation here — I'm happy to help with anything you need.\n\nBest regards,\n" ++ sign) ]
  (templates.find? (fun t => t.1 == intent)).map Prod.snd

/-- Seller row of the users table as read by requireLicense (nullable text
columns are optional strings). -/
structure UserRow where
  name : Option String
  business_name : Option String
  signature_name : Option String
  reply_tone : Option String
deriving DecidableEq, Repr

/-- buildSystemPrompt of routes/reply.js. -/
def buildSystemPrompt (user : UserRow) (intent risk : String) (toneSamples : List String) : String :=
  let tone := jsOr user.reply_tone "professional"
  let base :=
    "You are an expert eBay customer service assistant. You write replies on behalf of an eBay seller.\n\nSELLER INFO:\n- Business name: " ++
    jsOr user.business_name "eBay Store" ++
    "\n- Seller name: " ++ jsOr user.signature_name (jsOr user.name "The Seller") ++
    "\n- Preferred tone: " ++ tone ++
    "\n\nRULES:\n- Be " ++ tone ++ ", helpful, and concise\n- Keep replies under 150 words unless the situation is complex\n- Never admit fault or liability — stay neutral and helpful\n- Never suggest communicating outside of eBay\n- Always sign off with the seller's name\n- For tracking questions: remind them to check eBay purchase history\n- For returns: refer to the store's return policy on the listing\n- For damaged items: express concern, ask for photos, offer solutions\n- For legal threats: stay calm, neutral, factual — do NOT admit liability\n- For fraud claims: politely defend product authenticity, offer to help\n- NEVER make up tracking numbers, order details, or product specs\n- If you're unsure about specific order details, ask the buyer to provide them"
  let withRisk :=
    if risk == "high" then
      base ++ "\n\n⚠️ HIGH RISK MESSAGE DETECTED (" ++ intent ++ "):\n- Be EXTRA careful with your wording\n- Do NOT admit fault or accept liability\n- Stay factual and professional\n- Suggest resolving through eBay's resolution center if needed\n- Do not escalate or be defensive"
    else base
  if toneSamples.length > 0 then
    withRisk ++ "\n\nTONE REFERENCE — Here are examples of how this seller writes. Match their style:\n" ++
      String.join (((toneSamples.take 3).enum).map (fun p =>
        "\nExample " ++ toString (p.1 + 1) ++ ":\n" ++ p.2.take 500 ++ "\n"))
  else withRisk

/-- Result of one completed backend model call (the value produced by
callOpenAI / callAnthropic after parsing and pricing). -/
structure ModelOut where
  reply : String
  model : String
  tokens : Nat
  cost : Rat
deriving DecidableEq, Repr

/-- One outbound text-generation call, with the prompts that were sent. -/
inductive Call where
  | openai (system user : String)
  | anthropic (system user : String)
deriving DecidableEq, Repr

/-- Is the call directed at the low-cost OpenAI backend? -/
def Call.isOpenAI : Call → Bool
  | Call.openai _ _ => true
  | Call.anthropic _ _ => false

/-- HTTP response of the /reply/generate endpoint. -/
inductive Resp where
  | ok (reply intent risk route : String) (latency : Nat)
  | err (status : Nat) (msg : String)
deriving DecidableEq, Repr

/-- Is the response a success (2xx) response? -/
def Resp.isOk : Resp → Bool
  | Resp.ok _ _ _ _ _ => true
  | Resp.err _ _ => false

/-- Daily usage row of the usage table. -/
structure UsageRow where
  replies_count : Nat
  rule_count : Nat
  mini_count : Nat
  large_count : Nat
  tokens_used : Nat
  cost_usd : Rat
deriving DecidableEq, Repr

/-- One write issued against the storage collaborator after a reply is
drafted. -/
inductive DbWrite where
  | usageUpdate (row : UsageRow)
  | usageInsert (row : UsageRow)
  | replyLog (intent route model customer_message generated_reply : String)
      (modify_instructions : Option String) (tokens : Nat) (cost : Rat)
  | lastActive
deriving DecidableEq, Repr

/-- Outcome of one /reply/generate request: the HTTP response, the backend
calls issued, and the accounting writes issued. -/
structure GenOut where
  resp : Resp
  calls : List Call
  writes : List DbWrite
deriving DecidableEq, Repr

/-- Usage-tracking writes of routes/reply.js step 4: increment the existing
daily row or insert a fresh one. -/
def usageWrites (usageRow : Option UsageRow) (route : String) (tokens : Nat) (cost : Rat) : DbWrite :=
  match usageRow with
  | some ex =>
      DbWrite.usageUpdate
        { replies_count := ex.replies_count + 1
          rule_count := ex.rule_count + (if route == "rule" then 1 else 0)
          mini_count := ex.mini_count + (if route == "mini" then 1 else 0)
          large_count := ex.large_count + (if route == "large" then 1 else 0)
          tokens_used := ex.tokens_used + tokens
          cost_usd := ex.cost_usd + cost }
  | none =>
      DbWrite.usageInsert
        { replies_count := 1
          rule_count := if route == "rule" then 1 else 0
          mini_count := if route == "mini" then 1 else 0
          large_count := if route == "large" then 1 else 0
          tokens_used := tokens
          cost_usd := cost }

/-- Successful tail of the /generate handler: usage tracking, reply log,
last-active update, then the 200 response.  The outcomes of the awaited
storage calls are not inspected by the handler (the supabase client
reports failures as result values, which the code discards), so they do
not appear among the inputs. -/
def genFinish (customer_message : String) (modify_instructions : Option String) (r : Cls)
    (reply model : String) (tokens : Nat) (cost : Rat) (route : String) (calls : List Call)
    (usageRow : Option UsageRow) (latency : Nat) : GenOut :=
  { resp := Resp.ok reply r.intent r.risk route latency
    calls := calls
    writes :=
      [usageWrites usageRow route tokens cost,
       DbWrite.replyLog r.intent route model (customer_message.take 2000) (reply.take 2000)
         (if jsTruthy modify_instructions then modify_instructions else none) tokens cost,
       DbWrite.lastActive] }

/-- POST /reply/generate of routes/reply.js: validate, classify, route
through the three tiers (rule when confidence at least 80, risk low and no
modify instructions; the OpenAI tier unless risk is high; the Anthropic
tier as final fallback), then account and respond.  The two backend call
outcomes stand for the results of the single call the handler would issue
to each backend; sinkOutcome stands for the error values returned by the
awaited storage calls, which the handler never reads. -/
def generate (user : UserRow) (customer_message : String)
    (modify_instructions buyer_name : Option String) (tones : List String)
    (openaiRes anthropicRes : Except String ModelOut)
    (usageRow : Option UsageRow) (latency : Nat) (_sinkOutcome : Option String) : GenOut :=
  if customer_message == "" || (jsTrim customer_message.data).length < 3 then
    { resp := Resp.err 400 "Customer message is required", calls := [], writes := [] }
  else
    let r := classifyIntent customer_message
    let sysPrompt := buildSystemPrompt user r.intent r.risk tones
    let userMsg :=
      "Customer message:\n\"" ++ customer_message ++ "\"" ++
      (if jsTruthy buyer_name then "\n\nBuyer name: " ++ buyer_name.getD "" else "") ++
      (if jsTruthy modify_instructions then
        "\n\nAdditional instructions from seller: " ++ modify_instructions.getD "" else "")
    let rule? : Option String :=
      if r.confidence ≥ 80 && r.risk == "low" && !jsTruthy modify_instructions then
        getRuleBasedReply r.intent (jsOrOpt user.signature_name user.name) user.business_name
      else none
    match rule? with
    | some t =>
        genFinish customer_message modify_instructions r t "rule-based" 0 0 "rule" []
          usageRow latency
    | none =>
      if r.risk != "high" then
        match openaiRes with
        | Except.ok m =>
            genFinish customer_message modify_instructions r m.reply m.model m.tokens m.cost
              "mini" [Call.openai sysPrompt userMsg] usageRow latency
        | Except.error _ =>
          match anthropicRes with
          | Except.ok m =>
              genFinish customer_message modify_instructions r m.reply m.model m.tokens m.cost
                "large" [Call.openai sysPrompt userMsg, Call.anthropic sysPrompt userMsg]
                usageRow latency
          | Except.error _ =>
              { resp := Resp.err 500 "AI service unavailable. Please try again in a moment."
                calls := [Call.openai sysPrompt userMsg, Call.anthropic sysPrompt userMsg]
                writes := [] }
      else
        match anthropicRes with
        | Except.ok m =>
            genFinish customer_message modify_instructions r m.reply m.model m.tokens m.cost
              "large" [Call.anthropic sysPrompt userMsg] usageRow latency
        | Except.error _ =>
            { resp := Resp.err 500 "AI service unavailable. Please try again in a moment."
              calls := [Call.anthropic sysPrompt userMsg]
              writes := [] }

end ReplyRoute

namespace Agents

/-- The ordered intent/pattern table of classifyIntent in
backend/agents/classifierAgent.js (the eight-intent version). -/
def patterns : List (String × List (List Tok)) :=
  [ ("tracking",
      [[l1 "track"],
       [l1 "where", Tok.gap, lA ["order", "package", "item", "shipment"]],
       [l1 "not received"],
       [l1 "delivery date"]]),
    ("return",
      [[l1 "return"], [l1 "send", Tok.gap, l1 "back"], [l1 "exchange"]]),
    ("refund",
      [[l1 "refund"], [l1 "money back"], [l1 "charge", Tok.anyOpt, l1 "back"]]),
    ("damaged_item",
      [[l1 "damaged"], [l1 "broken"], [l1 "cracked"], [l1 "defective"], [l1 "not working"]]),
    ("cancellation",
      [[l1 "cancel"], [l1 "changed my mind"]]),
    ("legal_threat",
      [[l1 "lawyer"], [l1 "legal action"], [l1 "sue"], [l1 "court"], [l1 "report you"]]),
    ("fraud_claim",
      [[l1 "scam"], [l1 "fake"], [l1 "counterfeit"]]),
    ("off_platform",
      [[l1 "whatsapp"], [l1 "paypal", Tok.gap, l1 "direct"],
       [l1 "email", Tok.gap, l1 "direct"], [l1 "phone"]]) ]

/-- classifyIntent of backend/agents/classifierAgent.js: identical loop shape
to the route version, over the smaller table (message || '' lowercased). -/
def classifyIntent (message : Option String) : Cls :=
  let msg := (jsOr message "").data.map Char.toLower
  let best := ReplyRoute.pickBest (patterns.map (fun e => (e.1, ReplyRoute.scoreOf e.2 msg)))
  let highRisk := highRiskIntents.contains best.1
  let mediumRisk := mediumRiskIntents.contains best.1
  { intent := best.1
    confidence := min (best.2 * 30 + 20) 95
    risk := if highRisk then "high" else if mediumRisk then "medium" else "low" }

/-- Exactly n ASCII digits from the head of s, with the rest. -/
def takeDigits : Nat → List Char → Option (List Char × List Char)
  | 0, s => some ([], s)
  | _ + 1, [] => none
  | n + 1, c :: cs =>
    if c.isDigit then (takeDigits n cs).map (fun p => (c :: p.1, p.2)) else none

/-- Match of the order-id regex backslash-b d2-d5-d5 backslash-b at the head
of s, where prev is the character before s. -/
def orderIdAt (prev : Option Char) (s : List Char) : Option (List Char) :=
  if wordCharQ prev then none
  else
    match takeDigits 2 s with
    | none => none
    | some (a, r1) =>
      match r1 with
      | '-' :: r2 =>
        match takeDigits 5 r2 with
        | none => none
        | some (b, r3) =>
          match r3 with
          | '-' :: r4 =>
            match takeDigits 5 r4 with
            | none => none
            | some (c, r5) =>
              if wordCharQ r5.head? then none
              else some (a ++ '-' :: b ++ '-' :: c)
          | _ => none
      | _ => none

/-- Left-to-right scan for the first order-id match. -/
def extractOrderIdScan (prev : Option Char) (s : List Char) : Option (List Char) :=
  match s with
  | [] => none
  | c :: cs =>
    match orderIdAt prev (c :: cs) with
    | some m => some m
    | none => extractOrderIdScan (some c) cs

/-- extractOrderId of backend/agents/classifierAgent.js: first match of the
two-five-five digit hyphenated pattern, or null. -/
def extractOrderId (text : String) : Option String :=
  (extractOrderIdScan none text.data).map String.mk

/-- One thread message as consumed by classifierAgent. -/
structure ThreadMsg where
  role : String
  text : String
deriving DecidableEq, Repr

/-- Output record of classifierAgent (extracted.orderId is flattened to the
orderId field). -/
structure ClassifierOut where
  agent : String
  intent : String
  confidence : Nat
  risk : String
  orderId : Option String
  needsOrder : Bool
  needsTracking : Bool
  missing : List String
deriving DecidableEq, Repr

/-- classifierAgent of backend/agents/classifierAgent.js. -/
def classifierAgent (latestBuyerMessage : Option String)
    (threadMessages : Option (List ThreadMsg)) : ClassifierOut :=
  let text := jsOr latestBuyerMessage ""
  let orderId :=
    match extractOrderId text with
    | some o => some o
    | none =>
        extractOrderId (String.intercalate "\n" ((threadMessages.getD []).map (fun m => m.text)))
  let c := classifyIntent (some text)
  let needsOrder :=
    (["tracking", "refund", "return", "damaged_item", "cancellation"] : List String).contains c.intent
  let needsTracking := if needsOrder then (["tracking"] : List String).contains c.intent else false
  let missing := if needsOrder && !jsTruthy orderId then ["order_id"] else ([] : List String)
  { agent := "classifier", intent := c.intent, confidence := c.confidence, risk := c.risk
    orderId := orderId, needsOrder := needsOrder, needsTracking := needsTracking
    missing := missing }

/-- One normalized line item of the fetched order facts. -/
structure ItemInfo where
  title : String
  qty : Nat
  itemId : String
deriving DecidableEq, Repr

/-- Normalized order facts produced by dataFetchAgent. -/
structure OrderInfo where
  orderId : String
  status : String
  paymentStatus : String
  created : String
  buyerUsername : String
  shipToName : String
  items : List ItemInfo
deriving DecidableEq, Repr

/-- One tracking entry as normalized by backend/lib/ebayClient.js. -/
structure TrackingEntry where
  carrier : String
  trackingNumber : String
  shippedDate : String
  deliveryStatus : String
deriving DecidableEq, Repr

/-- The fetched sub-record of dataFetchAgent output; order and tracking are
only present after a successful fetch, and error marks an upstream fetch
failure object. -/
structure Fetched where
  order : Option OrderInfo
  tracking : Option (List TrackingEntry)
  error : Bool
deriving DecidableEq, Repr

/-- Output record of dataFetchAgent. -/
structure DataFetchOut where
  agent : String
  ok : Bool
  fetched : Fetched
  missing : List String
deriving DecidableEq, Repr

/-- One line item of the raw eBay order payload used by dataFetchAgent. -/
structure EbayLineItem where
  title : String
  quantity : Nat
  legacyItemId : Option String
  lineItemId : String
deriving DecidableEq, Repr

/-- Raw eBay order payload fields read by dataFetchAgent. -/
structure EbayOrder where
  orderId : String
  orderFulfillmentStatus : String
  orderPaymentStatus : String
  creationDate : String
  buyerUsername : Option String
  shipToFullName : Option String
  lineItems : List EbayLineItem
deriving DecidableEq, Repr

/-- Result of the external fetchOrderAndTracking call of
backend/lib/ebayClient.js: a normalized order plus tracking list, or a
failure object. -/
inductive FetchResult where
  | ok (order : EbayOrder) (tracking : List TrackingEntry)
  | err
deriving DecidableEq, Repr

/-- dataFetchAgent of backend/agents/classifierAgent.js (second file in that
bundle): token is the getEbayToken result and fetchRes the
fetchOrderAndTracking result, both external collaborators. -/
def dataFetchAgent (needsOrder : Bool) (orderId : Option String)
    (token : Option String) (fetchRes : FetchResult) : DataFetchOut :=
  let base : DataFetchOut :=
    { agent := "data_fetch", ok := true
      fetched := { order := none, tracking := none, error := false }, missing := [] }
  if !needsOrder then base
  else if !jsTruthy orderId then { base with ok := false, missing := ["order_id"] }
  else if !jsTruthy token then { base with ok := false, missing := ["ebay_oauth"] }
  else
    match fetchRes with
    | FetchResult.err =>
        { base with ok := false, fetched := { order := none, tracking := none, error := true } }
    | FetchResult.ok order tracking =>
        { base with
          fetched :=
            { order := some
                { orderId := order.orderId
                  status := order.orderFulfillmentStatus
                  paymentStatus := order.orderPaymentStatus
                  created := order.creationDate
                  buyerUsername := jsOr order.buyerUsername ""
                  shipToName := jsOr order.shipToFullName ""
                  items := order.lineItems.map (fun li =>
                    { title := li.title, qty := li.quantity
                      itemId := jsOr li.legacyItemId li.lineItemId }) }
              tracking := some tracking
              error := false } }

/-- Output record of riskAgent. -/
structure RiskOut where
  agent : String
  risk : String
  constraints : List String
deriving DecidableEq, Repr

/-- riskAgent of backend/agents/riskAgent.js. -/
def riskAgent (intent risk : String) : RiskOut :=
  { agent := "risk", risk := risk
    constraints :=
      ["Never suggest off-eBay communication",
       "Never invent tracking/order details",
       "Do not admit fault or liability"] ++
      (if risk == "high" then
        ["Stay calm and factual; do not escalate",
         "If needed, suggest eBay Resolution Center"] else []) ++
      (if intent == "fraud_claim" then
        ["Avoid accusing the buyer; offer a resolution path"] else []) }

/-- Output record of profitProtectionAgent. -/
structure ProfitOut where
  agent : String
  guidance : List String
deriving DecidableEq, Repr

/-- Case-insensitive test for one of the given literal phrases anywhere in
the text (the shipped-or-fulfilled regex of profitProtectionAgent). -/
def containsCI (alts : List (List Char)) (s : List Char) : Bool :=
  hasM { alts := alts, wb := false, rep := [] } none s

/-- profitProtectionAgent of backend/agents/profitProtectionAgent.js. -/
def profitProtectionAgent (intent : String) (fetched : Fetched) : ProfitOut :=
  let tracking := fetched.tracking.getD []
  let hasTracking := tracking.any (fun t => !(t.trackingNumber == ""))
  let orderStatus := match fetched.order with | some o => o.status | none => ""
  { agent := "profit_protection"
    guidance :=
      (if intent == "tracking" then
        (if hasTracking then
          ["Confirm shipment and provide carrier + tracking if present",
           "Set expectations on delivery window"]
         else ["State we are checking shipment status; avoid promising dates"])
       else []) ++
      (if intent == "refund" || intent == "return" then
        ["Do not promise refund until return process is followed",
         "Refer to return policy / official eBay return flow"] else []) ++
      (if intent == "cancellation" then
        (if !(orderStatus == "") && containsCI [chars "shipped", chars "fulfilled"] orderStatus.data then
          ["Explain order may already be dispatched; offer return options"]
         else ["If not shipped, confirm cancellation steps"])
       else []) }

/-- Output record of reasoningAgent: the reasoning bundle handed to the
writer. -/
structure ReasoningOut where
  agent : String
  facts : List String
  questions : List String
  constraints : List String
deriving DecidableEq, Repr

/-- Clarifying question emitted when the order id is missing. -/
def orderIdQuestion : String :=
  "Could you please confirm your eBay order number so I can check the tracking/status?"

/-- Clarifying question emitted when the eBay account is not linked. -/
def oauthQuestion : String :=
  "Seller needs to connect eBay account to fetch live order/tracking data."

/-- reasoningAgent of backend/agents/reasoningAgent.js: flatten facts,
append clarifying questions, concatenate constraint lists. -/
def reasoningAgent (classifier : ClassifierOut) (dataFetch : DataFetchOut)
    (risk : RiskOut) (profit : ProfitOut) : ReasoningOut :=
  let orderFacts :=
    match dataFetch.fetched.order with
    | some o =>
        ["Order ID: " ++ o.orderId] ++
        (if !(o.status == "") then ["Order status: " ++ o.status] else []) ++
        (if o.items.length != 0 then
          ["Items: " ++ String.intercalate "; "
            (o.items.map (fun i => toString i.qty ++ "× " ++ i.title))] else [])
    | none => []
  let tracking := dataFetch.fetched.tracking.getD []
  let facts := orderFacts ++
    (match tracking with
     | [] => []
     | t :: _ =>
       if !(t.carrier == "") || !(t.trackingNumber == "") then
         [String.mk (jsTrim ("Tracking: " ++ t.carrier ++ " " ++ t.trackingNumber).data)]
       else [])
  let questions :=
    (if classifier.missing.contains "order_id" then [orderIdQuestion] else []) ++
    (if dataFetch.missing.contains "ebay_oauth" then [oauthQuestion] else [])
  { agent := "reasoning", facts := facts, questions := questions
    constraints := risk.constraints ++ profit.guidance }

end Agents

namespace Agents

/-- Composition of the agent stages following the control flow of the
pipeline (classifier, data fetch, constraint agents, reasoning
assembler); the route module imports all these agents, and this wiring
passes each agent exactly the fields its source destructures. -/
def agentPipeline (msg : Option String) (thread : Option (List ThreadMsg))
    (token : Option String) (fr : FetchResult) : ReasoningOut :=
  let c := classifierAgent msg thread
  let d := dataFetchAgent c.needsOrder c.orderId token fr
  reasoningAgent c d (riskAgent c.intent c.risk) (profitProtectionAgent c.intent d.fetched)

end Agents

/-- Context character after scanning past u, starting from prev. -/
def prevAfter (u : List Char) (prev : Option Char) : Option Char :=
  match u.getLast? with
  | some c => some c
  | none => prev

/-- No match of the pattern starts at a position inside u when the text
continues with v; prev precedes u.  This is the head-by-head restatement
of the left part of a hasM scan over u ++ v. -/
def noStartIn (pat : Rule) (prev : Option Char) : List Char → List Char → Bool
  | [], _ => true
  | c :: u', v => !(findM pat prev (c :: (u' ++ v))).isSome && noStartIn pat (some c) u' v

/-- Shape check on a pattern: word boundaries are required and every
alternative is nonempty and starts and ends with a word character. -/
def patShapeOk (P : Rule) : Bool :=
  P.wb && P.alts.all (fun a => !a.isEmpty && wordCharQ a.head? && wordCharQ a.getLast?)

/-- Shape check on a replacement text: nonempty, starting and ending with a
word character. -/
def repShapeOk (rep : List Char) : Bool :=
  !rep.isEmpty && wordCharQ rep.head? && wordCharQ rep.getLast?

/-- Check that no alternative of P can start a match at any offset inside
rep: at each offset either the literal comparison already fails inside
rep, or the offset is interior with word characters on both sides, which
refutes the leading word boundary. -/
def noAltStartInRep (P : Rule) (rep : List Char) : Bool :=
  (List.range rep.length).all (fun j =>
    P.alts.all (fun a =>
      if a.length ≤ rep.length - j then !litMatch a (rep.drop j)
      else
        !litMatch (a.take (rep.length - j)) (rep.drop j) ||
        (decide (0 < j) && wordCharQ (rep.take j).getLast? && wordCharQ (rep.drop j).head?)))

/-- Check that no match of P can run from copied text into a replacement
block: no proper nonempty tail of an alternative fits as a
case-insensitive prefix of rep. -/
def noAltTailIntoRep (P : Rule) (rep : List Char) : Bool :=
  P.alts.all (fun a =>
    (List.range a.length).all (fun k =>
      k == 0 || (decide (a.length - k ≤ rep.length) && !litMatch (a.drop k) rep)))

/-- The fuelled scan is independent of the fuel once the fuel covers the text
length. -/
theorem replaceScanF_stable (ru : Rule) :
    ∀ fuel fuel' : Nat, ∀ prev : Option Char, ∀ s : List Char,
      s.length ≤ fuel → s.length ≤ fuel' →
      replaceScanF ru fuel prev s = replaceScanF ru fuel' prev s := by
  intro fuel
  induction fuel with
  | zero =>
    intro fuel' prev s h _
    have hs : s = [] := List.length_eq_zero.mp (Nat.le_zero.mp h)
    subst hs
    cases fuel' <;> rfl
  | succ n ih =>
    intro fuel' prev s h h'
    cases s with
    | nil => cases fuel' <;> rfl
    | cons c cs =>
      cases fuel' with
      | zero => exact absurd h' (by simp)
      | succ m =>
        simp only [replaceScanF]
        cases hf : findM ru prev (c :: cs) with
        | none =>
          simp only []
          have := ih m (some c) cs (by simpa using h) (by simpa using h')
          rw [this]
        | some a =>
          simp only []
          have hlen : (cs.drop (a.length - 1)).length ≤ n := by
            simp only [List.length_drop]
            have : cs.length ≤ n := by simpa using h
            omega
          have hlen' : (cs.drop (a.length - 1)).length ≤ m := by
            simp only [List.length_drop]
            have : cs.length ≤ m := by simpa using h'
            omega
          rw [ih m _ _ hlen hlen']

/-- Unfolding equation for replaceScan on nil. -/
theorem replaceScan_nil (ru : Rule) (prev : Option Char) : replaceScan ru prev [] = [] := rfl

/-- Unfolding equation for replaceScan when a match is found at the head. -/
theorem replaceScan_cons_match (ru : Rule) (prev : Option Char) (c : Char) (cs : List Char)
    (a : List Char) (hf : findM ru prev (c :: cs) = some a) :
    replaceScan ru prev (c :: cs) =
      ru.rep ++ replaceScan ru (((c :: cs).take a.length).getLast?) (cs.drop (a.length - 1)) := by
  show replaceScanF ru (cs.length + 1) prev (c :: cs) = _
  simp only [replaceScanF, hf]
  rw [replaceScanF_stable ru cs.length (cs.drop (a.length - 1)).length]
  · rfl
  · simp only [List.length_drop]; omega
  · exact Nat.le_refl _

/-- Unfolding equation for replaceScan when no match starts at the head. -/
theorem replaceScan_cons_none (ru : Rule) (prev : Option Char) (c : Char) (cs : List Char)
    (hf : findM ru prev (c :: cs) = none) :
    replaceScan ru prev (c :: cs) = c :: replaceScan ru (some c) cs := by
  show replaceScanF ru (cs.length + 1) prev (c :: cs) = _
  simp only [replaceScanF, hf]
  rfl

/-- The foldr-max of a list of naturals is zero or an element of the list. -/
theorem foldr_max_attained (l : List Nat) : l.foldr max 0 = 0 ∨ l.foldr max 0 ∈ l := by
  induction l with
  | nil => left; rfl
  | cons c t ih =>
    simp only [List.foldr_cons]
    rcases Nat.le_total c (t.foldr max 0) with h | h
    · rw [Nat.max_eq_right h]
      rcases ih with h0 | hm
      · left; exact h0
      · right; exact List.mem_cons_of_mem _ hm
    · rw [Nat.max_eq_left h]
      right; exact List.mem_cons_self _ _

/-- The strictly-improving best-score fold of classifyIntent equals the
first-attainer-of-the-maximum selection, with the initial accumulator kept
when nothing beats it. -/
theorem foldl_best_spec (l : List (String × Nat)) (b : String × Nat) :
    l.foldl (fun acc e => if acc.2 < e.2 then e else acc) b =
      if (l.map Prod.snd).foldr max 0 ≤ b.2 then b
      else (l.find? (fun e => e.2 == (l.map Prod.snd).foldr max 0)).getD b := by
  induction l generalizing b with
  | nil => simp
  | cons e t ih =>
    simp only [List.foldl_cons, List.map_cons, List.foldr_cons]
    by_cases hbe : b.2 < e.2
    · simp only [if_pos hbe]
      rw [ih e]
      by_cases hMt : (t.map Prod.snd).foldr max 0 ≤ e.2
      · rw [if_pos hMt]
        have hmax : max e.2 ((t.map Prod.snd).foldr max 0) = e.2 := Nat.max_eq_left hMt
        rw [hmax, if_neg (by omega)]
        rw [List.find?_cons_of_pos _ (by simp)]
        rfl
      · rw [if_neg hMt]
        push_neg at hMt
        have hmax : max e.2 ((t.map Prod.snd).foldr max 0) = (t.map Prod.snd).foldr max 0 :=
          Nat.max_eq_right (Nat.le_of_lt hMt)
        rw [hmax, if_neg (by omega)]
        rw [List.find?_cons_of_neg _ (by simp; omega)]
        have hat : (t.map Prod.snd).foldr max 0 ∈ t.map Prod.snd := by
          rcases foldr_max_attained (t.map Prod.snd) with h0 | hm
          · omega
          · exact hm
        rcases List.mem_map.mp hat with ⟨x, hx, hxs⟩
        have : (t.find? (fun e => e.2 == (t.map Prod.snd).foldr max 0)).isSome := by
          rw [List.find?_isSome]
          exact ⟨x, hx, by simp [hxs]⟩
        rcases Option.isSome_iff_exists.mp this with ⟨y, hy⟩
        rw [hy]
        rfl
    · simp only [if_neg hbe]
      rw [ih b]
      push_neg at hbe
      by_cases hMt : (t.map Prod.snd).foldr max 0 ≤ b.2
      · rw [if_pos hMt, if_pos (by omega)]
      · rw [if_neg hMt]
        push_neg at hMt
        have hmax : max e.2 ((t.map Prod.snd).foldr max 0) = (t.map Prod.snd).foldr max 0 :=
          Nat.max_eq_right (by omega)
        rw [hmax, if_neg (by omega)]
        rw [List.find?_cons_of_neg _ (by simp; omega)]

/-- Claim C6: classifyIntent is total and implements exactly the documented
algorithm: per-intent pattern-count scores on the lowercased input, the
strictly highest score wins with first-wins tie-break in table order, the
default is general with confidence 20 and risk low when nothing matches,
and confidence is min (score * 30 + 20) 95. -/
theorem classifyIntent_follows_spec_algorithm (m : String) :
    ReplyRoute.classifyIntent m = ReplyRoute.specClassify m := by
  unfold ReplyRoute.classifyIntent ReplyRoute.specClassify ReplyRoute.pickBest
  dsimp only
  set msg := m.data.map Char.toLower with hmsg
  set scored := ReplyRoute.patterns.map (fun e => (e.1, ReplyRoute.scoreOf e.2 msg)) with hscored
  rw [foldl_best_spec]
  by_cases hM : (scored.map Prod.snd).foldr max 0 = 0
  · rw [hM]
    simp only [Nat.le_refl, if_pos (Nat.zero_le 0), if_pos rfl]
    rfl
  · rw [if_neg (by omega), if_neg hM]
    have hat : (scored.map Prod.snd).foldr max 0 ∈ scored.map Prod.snd := by
      rcases foldr_max_attained (scored.map Prod.snd) with h0 | hm
      · exact absurd h0 hM
      · exact hm
    rcases List.mem_map.mp hat with ⟨x, hx, hxs⟩
    have hsome : (scored.find? (fun e => e.2 == (scored.map Prod.snd).foldr max 0)).isSome := by
      rw [List.find?_isSome]
      exact ⟨x, hx, by simp [hxs]⟩
    rcases Option.isSome_iff_exists.mp hsome with ⟨y, hy⟩
    rw [hy]
    have hyeq : y.2 = (scored.map Prod.snd).foldr max 0 := by
      have := List.find?_some hy
      simpa using this
    simp only [Option.getD_some, hyeq]
    rfl

/-- Claim C8: in both classifier versions the risk tier is a pure function
of the winning intent through the fixed membership lists, and that
function yields high exactly on the high-risk list and medium exactly on
the medium-risk list. -/
theorem risk_pure_function_of_intent :
    (∀ m : String,
      (ReplyRoute.classifyIntent m).risk = riskOf (ReplyRoute.classifyIntent m).intent) ∧
    (∀ m : Option String,
      (Agents.classifyIntent m).risk = riskOf (Agents.classifyIntent m).intent) ∧
    (∀ i : String, riskOf i = "high" ↔ i ∈ highRiskIntents) ∧
    (∀ i : String, riskOf i = "medium" ↔ i ∈ mediumRiskIntents) := by
  have hmem : ∀ (l : List String) (i : String), l.contains i = true ↔ i ∈ l :=
    fun l i => List.elem_iff
  refine ⟨fun m => rfl, fun m => rfl, fun i => ?_, fun i => ?_⟩
  · unfold riskOf
    by_cases h1 : i ∈ highRiskIntents
    · rw [if_pos ((hmem _ _).mpr h1)]
      simp [h1]
    · rw [if_neg (fun hc => h1 ((hmem _ _).mp hc))]
      constructor
      · intro he
        exfalso
        by_cases h2 : i ∈ mediumRiskIntents
        · rw [if_pos ((hmem _ _).mpr h2)] at he
          exact absurd he (by decide)
        · rw [if_neg (fun hc => h2 ((hmem _ _).mp hc))] at he
          exact absurd he (by decide)
      · intro hm
        exact absurd hm h1
  · unfold riskOf
    by_cases h1 : i ∈ highRiskIntents
    · rw [if_pos ((hmem _ _).mpr h1)]
      constructor
      · intro he
        exact absurd he (by decide)
      · intro hm
        exfalso
        simp only [highRiskIntents, List.mem_cons, List.not_mem_nil, or_false] at h1
        rcases h1 with rfl | rfl | rfl <;> revert hm <;> decide
    · rw [if_neg (fun hc => h1 ((hmem _ _).mp hc))]
      by_cases h2 : i ∈ mediumRiskIntents
      · rw [if_pos ((hmem _ _).mpr h2)]
        simp [h2]
      · rw [if_neg (fun hc => h2 ((hmem _ _).mp hc))]
        constructor
        · intro he
          exact absurd he (by decide)
        · intro hm
          exact absurd hm h2

/-- Claim C10: for every input the confidence of both classifier versions is
an integer in the closed interval from 20 to 95, and the lower bound 20 is
attained, for instance on the empty message. -/
theorem confidence_bounds :
    (∀ m : String,
      20 ≤ (ReplyRoute.classifyIntent m).confidence ∧
        (ReplyRoute.classifyIntent m).confidence ≤ 95) ∧
    (∀ m : Option String,
      20 ≤ (Agents.classifyIntent m).confidence ∧ (Agents.classifyIntent m).confidence ≤ 95) ∧
    (ReplyRoute.classifyIntent "").confidence = 20 ∧
    (Agents.classifyIntent (some "")).confidence = 20 := by
  refine ⟨fun m => ⟨?_, ?_⟩, fun m => ⟨?_, ?_⟩, by decide, by decide⟩
  · unfold ReplyRoute.classifyIntent
    dsimp only
    exact Nat.le_min.mpr ⟨by omega, by omega⟩
  · exact Nat.min_le_right _ _
  · unfold Agents.classifyIntent
    dsimp only
    exact Nat.le_min.mpr ⟨by omega, by omega⟩
  · exact Nat.min_le_right _ _

set_option maxRecDepth 100000 in
/-- Claim C2 counterexample: a high-confidence low-risk tracking message with
no modify instructions routes to the rule tier even though the tracking
intent requires order facts (it is in the needs-order list of the
classifier agent), refuting the claim that the rule tier is never selected
when order facts were required. -/
theorem rule_tier_selected_despite_order_facts_required :
    (ReplyRoute.generate
        { name := none, business_name := none, signature_name := some "Alex", reply_tone := none }
        "track my order not received" none none [] (Except.error "down") (Except.error "down")
        none 7 none).resp =
      ReplyRoute.Resp.ok
        ("Hi there,\n\nThank you for your message. Your order has been dispatched and is on its way to you. You can find your tracking information in your eBay purchase history or notifications — please allow up to 24 hours for tracking to become active after shipping.\n\nIf you have any other questions, please don't hesitate to ask.\n\nBest regards,\nAlex")
        "tracking" "low" "rule" 7 ∧
    (ReplyRoute.classifyIntent "track my order not received").intent = "tracking" ∧
    (["tracking", "refund", "return", "damaged_item", "cancellation"] : List String).contains
        (ReplyRoute.classifyIntent "track my order not received").intent = true := by
  refine ⟨by decide, by decide, by decide⟩

/-- Claim C2 (amended): whenever the /generate handler answers through the
rule route, the classifier confidence was at least 80, the risk was low,
no truthy modify instructions were present, and a rule template existed
for the winning intent; no order-facts condition is consulted. -/
theorem rule_tier_selection_conditions
    (user : ReplyRoute.UserRow) (cm : String) (mo bu : Option String) (tones : List String)
    (oa oh : Except String ReplyRoute.ModelOut) (row : Option ReplyRoute.UsageRow)
    (lat : Nat) (se : Option String) (rep i k : String) (l : Nat)
    (h : (ReplyRoute.generate user cm mo bu tones oa oh row lat se).resp =
      ReplyRoute.Resp.ok rep i k "rule" l) :
    80 ≤ (ReplyRoute.classifyIntent cm).confidence ∧
    (ReplyRoute.classifyIntent cm).risk = "low" ∧
    jsTruthy mo = false ∧
    ReplyRoute.getRuleBasedReply (ReplyRoute.classifyIntent cm).intent
      (jsOrOpt user.signature_name user.name) user.business_name = some rep := by
  unfold ReplyRoute.generate at h
  dsimp only at h
  by_cases hv : (cm == "" || decide ((jsTrim cm.data).length < 3)) = true
  · rw [if_pos hv] at h
    exact absurd h (by simp)
  · rw [if_neg hv] at h
    by_cases hc : (decide (80 ≤ (ReplyRoute.classifyIntent cm).confidence) &&
        (ReplyRoute.classifyIntent cm).risk == "low" && !jsTruthy mo) = true
    · rw [if_pos hc] at h
      simp only [Bool.and_eq_true, decide_eq_true_eq, beq_iff_eq, Bool.not_eq_true'] at hc
      cases hr : ReplyRoute.getRuleBasedReply (ReplyRoute.classifyIntent cm).intent
          (jsOrOpt user.signature_name user.name) user.business_name with
      | none =>
        rw [hr] at h
        refine absurd h ?_
        by_cases hh : ((ReplyRoute.classifyIntent cm).risk != "high") = true
        · rw [if_pos hh]
          cases oa with
          | ok m => simp [ReplyRoute.genFinish]
          | error e =>
            cases oh with
            | ok m => simp [ReplyRoute.genFinish]
            | error e2 => simp
        · rw [if_neg hh]
          cases oh with
          | ok m => simp [ReplyRoute.genFinish]
          | error e2 => simp
      | some t =>
        rw [hr] at h
        simp only [ReplyRoute.genFinish, ReplyRoute.Resp.ok.injEq] at h
        exact ⟨hc.1.1, hc.1.2, hc.2, congrArg some h.1⟩
    · rw [if_neg hc] at h
      refine absurd h ?_
      by_cases hh : ((ReplyRoute.classifyIntent cm).risk != "high") = true
      · rw [if_pos hh]
        cases oa with
        | ok m => simp [ReplyRoute.genFinish]
        | error e =>
          cases oh with
          | ok m => simp [ReplyRoute.genFinish]
          | error e2 => simp
      · rw [if_neg hh]
        cases oh with
        | ok m => simp [ReplyRoute.genFinish]
        | error e2 => simp

set_option maxRecDepth 100000 in
/-- Concrete witness for the amended rule-tier selection conditions. -/
theorem rule_tier_selection_conditions_witness :
    80 ≤ (ReplyRoute.classifyIntent "track my order not received").confidence ∧
    (ReplyRoute.classifyIntent "track my order not received").risk = "low" ∧
    jsTruthy (none : Option String) = false ∧
    ReplyRoute.getRuleBasedReply (ReplyRoute.classifyIntent "track my order not received").intent
      (jsOrOpt (some "Sam") none) none =
      some ("Hi there,\n\nThank you for your message. Your order has been dispatched and is on its way to you. You can find your tracking information in your eBay purchase history or notifications — please allow up to 24 hours for tracking to become active after shipping.\n\nIf you have any other questions, please don't hesitate to ask.\n\nBest regards,\nSam") :=
  rule_tier_selection_conditions
    { name := none, business_name := none, signature_name := some "Sam", reply_tone := none }
    "track my order not received" none none [] (Except.error "down") (Except.error "down")
    none 9 none _ "tracking" "low" 9 (by decide)

/-- Claim C3: when the classifier reports high risk, the /generate handler
never issues a call to the low-cost OpenAI backend, and any successful
response was produced through the large (high-cost) route. -/
theorem high_risk_never_calls_lowcost
    (user : ReplyRoute.UserRow) (cm : String) (mo bu : Option String) (tones : List String)
    (oa oh : Except String ReplyRoute.ModelOut) (row : Option ReplyRoute.UsageRow)
    (lat : Nat) (se : Option String)
    (h : (ReplyRoute.classifyIntent cm).risk = "high") :
    ((ReplyRoute.generate user cm mo bu tones oa oh row lat se).calls.all
      (fun c => !c.isOpenAI)) = true ∧
    (∀ rep i k rt l,
      (ReplyRoute.generate user cm mo bu tones oa oh row lat se).resp =
          ReplyRoute.Resp.ok rep i k rt l →
      rt = "large") := by
  unfold ReplyRoute.generate
  dsimp only
  by_cases hv : (cm == "" || decide ((jsTrim cm.data).length < 3)) = true
  · rw [if_pos hv]
    exact ⟨rfl, by intro rep i k rt l hres; simp at hres⟩
  · rw [if_neg hv]
    have hc : (decide (80 ≤ (ReplyRoute.classifyIntent cm).confidence) &&
        (ReplyRoute.classifyIntent cm).risk == "low" && !jsTruthy mo) = false := by
      rw [h]
      simp
    rw [hc]
    simp only [Bool.false_eq_true, if_false]
    have hh : ((ReplyRoute.classifyIntent cm).risk != "high") = false := by
      rw [h]
      simp
    rw [hh]
    simp only [Bool.false_eq_true, if_false]
    cases oh with
    | ok m =>
      constructor
      · rfl
      · intro rep i k rt l hres
        simp only [ReplyRoute.genFinish, ReplyRoute.Resp.ok.injEq] at hres
        exact hres.2.2.2.1.symm
    | error e =>
      constructor
      · rfl
      · intro rep i k rt l hres
        simp at hres

set_option maxRecDepth 100000 in
/-- Concrete witness for the high-risk routing theorem: a fraud-claim message
classifies as high risk and no call recorded by the handler on it targets
the OpenAI backend. -/
theorem high_risk_never_calls_lowcost_witness :
    (ReplyRoute.classifyIntent "this is a scam").risk = "high" ∧
    ((ReplyRoute.generate
        { name := none, business_name := none, signature_name := none, reply_tone := none }
        "this is a scam" none none [] (Except.error "x")
        (Except.ok { reply := "ok", model := "claude-haiku-4-5-20241022", tokens := 1, cost := 0 })
        none 4 none).calls.all (fun c => !c.isOpenAI)) = true :=
  ⟨by decide,
    (high_risk_never_calls_lowcost
      { name := none, business_name := none, signature_name := none, reply_tone := none }
      "this is a scam" none none [] (Except.error "x")
      (Except.ok { reply := "ok", model := "claude-haiku-4-5-20241022", tokens := 1, cost := 0 })
      none 4 none (by decide)).1⟩

/-- Claim C5: the response of /generate does not depend on the state of the
usage row nor on the outcomes of the accounting writes (the handler never
reads the error values the storage client returns), and whenever the
final-fallback backend succeeds on a valid message the caller receives a
success response, so accounting can never withhold a drafted reply. -/
theorem sink_outcome_does_not_affect_reply
    (user : ReplyRoute.UserRow) (cm : String) (mo bu : Option String) (tones : List String)
    (oa oh : Except String ReplyRoute.ModelOut) (row row' : Option ReplyRoute.UsageRow)
    (lat : Nat) (se se' : Option String) :
    ((ReplyRoute.generate user cm mo bu tones oa oh row lat se).resp =
      (ReplyRoute.generate user cm mo bu tones oa oh row' lat se').resp) ∧
    (∀ m, oh = Except.ok m →
      (cm == "" || decide ((jsTrim cm.data).length < 3)) = false →
      (ReplyRoute.generate user cm mo bu tones oa oh row lat se).resp.isOk = true) := by
  constructor
  · unfold ReplyRoute.generate
    dsimp only
    by_cases hv : (cm == "" || decide ((jsTrim cm.data).length < 3)) = true
    · rw [if_pos hv, if_pos hv]
    · rw [if_neg hv, if_neg hv]
      cases hr : (if (decide (80 ≤ (ReplyRoute.classifyIntent cm).confidence) &&
            (ReplyRoute.classifyIntent cm).risk == "low" && !jsTruthy mo) = true then
          ReplyRoute.getRuleBasedReply (ReplyRoute.classifyIntent cm).intent
            (jsOrOpt user.signature_name user.name) user.business_name
        else none) with
      | some t => simp [ReplyRoute.genFinish]
      | none =>
        by_cases hh : ((ReplyRoute.classifyIntent cm).risk != "high") = true
        · rw [if_pos hh, if_pos hh]
          cases oa with
          | ok m => simp [ReplyRoute.genFinish]
          | error e =>
            cases oh with
            | ok m => simp [ReplyRoute.genFinish]
            | error e2 => rfl
        · rw [if_neg hh, if_neg hh]
          cases oh with
          | ok m => simp [ReplyRoute.genFinish]
          | error e2 => rfl
  · intro m hm hv
    subst hm
    unfold ReplyRoute.generate
    dsimp only
    rw [hv]
    simp only [Bool.false_eq_true, if_false]
    cases hr : (if (decide (80 ≤ (ReplyRoute.classifyIntent cm).confidence) &&
          (ReplyRoute.classifyIntent cm).risk == "low" && !jsTruthy mo) = true then
        ReplyRoute.getRuleBasedReply (ReplyRoute.classifyIntent cm).intent
          (jsOrOpt user.signature_name user.name) user.business_name
      else none) with
    | some t => rfl
    | none =>
      by_cases hh : ((ReplyRoute.classifyIntent cm).risk != "high") = true
      · rw [if_pos hh]
        cases oa with
        | ok m2 => rfl
        | error e => rfl
      · rw [if_neg hh]
        rfl

set_option maxRecDepth 100000 in
/-- Concrete witness for the accounting-independence theorem: changing the
usage row and sink outcome leaves the response unchanged, and the
final-fallback success yields a success response. -/
theorem sink_outcome_does_not_affect_reply_witness :
    ((ReplyRoute.generate
        { name := none, business_name := none, signature_name := none, reply_tone := none }
        "hello there friend" none none [] (Except.error "x")
        (Except.ok { reply := "All good!", model := "claude-haiku-4-5-20241022", tokens := 2, cost := 0 })
        (some { replies_count := 1, rule_count := 0, mini_count := 1, large_count := 0,
                tokens_used := 10, cost_usd := 0 })
        3 (some "sink failed")).resp =
      (ReplyRoute.generate
        { name := none, business_name := none, signature_name := none, reply_tone := none }
        "hello there friend" none none [] (Except.error "x")
        (Except.ok { reply := "All good!", model := "claude-haiku-4-5-20241022", tokens := 2, cost := 0 })
        none 3 none).resp) ∧
    (ReplyRoute.generate
        { name := none, business_name := none, signature_name := none, reply_tone := none }
        "hello there friend" none none [] (Except.error "x")
        (Except.ok { reply := "All good!", model := "claude-haiku-4-5-20241022", tokens := 2, cost := 0 })
        (some { replies_count := 1, rule_count := 0, mini_count := 1, large_count := 0,
                tokens_used := 10, cost_usd := 0 })
        3 (some "sink failed")).resp.isOk = true :=
  ⟨(sink_outcome_does_not_affect_reply
      { name := none, business_name := none, signature_name := none, reply_tone := none }
      "hello there friend" none none [] (Except.error "x")
      (Except.ok { reply := "All good!", model := "claude-haiku-4-5-20241022", tokens := 2, cost := 0 })
      (some { replies_count := 1, rule_count := 0, mini_count := 1, large_count := 0,
              tokens_used := 10, cost_usd := 0 })
      none 3 (some "sink failed") none).1,
   (sink_outcome_does_not_affect_reply
      { name := none, business_name := none, signature_name := none, reply_tone := none }
      "hello there friend" none none [] (Except.error "x")
      (Except.ok { reply := "All good!", model := "claude-haiku-4-5-20241022", tokens := 2, cost := 0 })
      (some { replies_count := 1, rule_count := 0, mini_count := 1, large_count := 0,
              tokens_used := 10, cost_usd := 0 })
      none 3 (some "sink failed") none).2
     { reply := "All good!", model := "claude-haiku-4-5-20241022", tokens := 2, cost := 0 }
     rfl (by decide)⟩

set_option maxRecDepth 100000 in
/-- Claim C1 (code bug): the /generate handler returns the drafted text
verbatim and never invokes safetyCheckAgent (the agent is imported by the
route module but never called), so on a draft containing a fault
admission the caller receives text the safety filter would have
rewritten. -/
theorem generate_returns_unfiltered_draft :
    (ReplyRoute.generate
        { name := some "Sam", business_name := none, signature_name := none, reply_tone := none }
        "hello there friend" none none []
        (Except.ok { reply := "Unfortunately it's our fault.", model := "gpt-4o-mini",
                     tokens := 42, cost := 0 })
        (Except.error "x") none 5 none).resp =
      ReplyRoute.Resp.ok "Unfortunately it's our fault." "general" "low" "mini" 5 ∧
    (safetyCheckAgent "Unfortunately it's our fault.").reply =
      "Unfortunately I’m sorry for the inconvenience." ∧
    (safetyCheckAgent "Unfortunately it's our fault.").reply ≠ "Unfortunately it's our fault." :=
  ⟨by decide, by decide, by decide⟩

/-- Claim C4 counterexample: a tracking message carrying an order id, with a
linked account but an unavailable upstream, produces an ok-false fetch
result whose reasoning bundle contains no clarifying question at all,
refuting the claim that every ok-false result surfaces one. -/
theorem upstream_failure_yields_no_question :
    (Agents.dataFetchAgent
        (Agents.classifierAgent (some "track order 12-34567-89012") none).needsOrder
        (Agents.classifierAgent (some "track order 12-34567-89012") none).orderId
        (some "tok") Agents.FetchResult.err).ok = false ∧
    (Agents.agentPipeline (some "track order 12-34567-89012") none (some "tok")
        Agents.FetchResult.err).questions = [] := by
  refine ⟨by decide, by decide⟩

/-- Claim C4 (amended): an ok-false fetch result never aborts the pipeline
and always leaves the bundle without fabricated facts; a clarifying
question is added for the missing-order-id and unlinked-account reasons,
while the upstream-unavailable reason adds no question. -/
theorem factfetch_failure_nonfatal_questions
    (msg : Option String) (thread : Option (List Agents.ThreadMsg))
    (token : Option String) (fr : Agents.FetchResult)
    (hok : (Agents.dataFetchAgent (Agents.classifierAgent msg thread).needsOrder
        (Agents.classifierAgent msg thread).orderId token fr).ok = false) :
    (Agents.agentPipeline msg thread token fr).facts = [] ∧
    ((Agents.dataFetchAgent (Agents.classifierAgent msg thread).needsOrder
        (Agents.classifierAgent msg thread).orderId token fr).missing = ["order_id"] →
      Agents.orderIdQuestion ∈ (Agents.agentPipeline msg thread token fr).questions) ∧
    ((Agents.dataFetchAgent (Agents.classifierAgent msg thread).needsOrder
        (Agents.classifierAgent msg thread).orderId token fr).missing = ["ebay_oauth"] →
      Agents.oauthQuestion ∈ (Agents.agentPipeline msg thread token fr).questions) ∧
    ((Agents.dataFetchAgent (Agents.classifierAgent msg thread).needsOrder
        (Agents.classifierAgent msg thread).orderId token fr).missing = [] →
      (Agents.agentPipeline msg thread token fr).questions = []) := by
  have hmiss : (Agents.classifierAgent msg thread).missing =
      (if (Agents.classifierAgent msg thread).needsOrder &&
          !jsTruthy (Agents.classifierAgent msg thread).orderId then ["order_id"] else []) := rfl
  unfold Agents.agentPipeline
  dsimp only
  unfold Agents.dataFetchAgent at hok ⊢
  dsimp only at hok ⊢
  cases hb1 : (Agents.classifierAgent msg thread).needsOrder with
  | false =>
    rw [hb1] at hok
    simp at hok
  | true =>
    rw [hb1] at hok
    simp only [Bool.not_true, Bool.false_eq_true, if_false] at hok ⊢
    cases hb2 : jsTruthy (Agents.classifierAgent msg thread).orderId with
    | false =>
      rw [hb2] at hok
      simp only [Bool.not_false, if_true] at hok ⊢
      have hcm : (Agents.classifierAgent msg thread).missing = ["order_id"] := by
        rw [hmiss, hb1, hb2]
        rfl
      refine ⟨rfl, fun _ => ?_, fun hc => ?_, fun hc => ?_⟩
      · simp only [Agents.reasoningAgent, hcm]
        decide
      · exact absurd hc (by decide)
      · exact absurd hc (by decide)
    | true =>
      rw [hb2] at hok
      simp only [Bool.not_true, Bool.false_eq_true, if_false] at hok ⊢
      have hcm : (Agents.classifierAgent msg thread).missing = [] := by
        rw [hmiss, hb1, hb2]
        rfl
      cases hb3 : jsTruthy token with
      | false =>
        rw [hb3] at hok
        simp only [Bool.not_false, if_true] at hok ⊢
        refine ⟨rfl, fun hc => ?_, fun _ => ?_, fun hc => ?_⟩
        · exact absurd hc (by decide)
        · simp only [Agents.reasoningAgent, hcm]
          decide
        · exact absurd hc (by decide)
      | true =>
        rw [hb3] at hok
        simp only [Bool.not_true, Bool.false_eq_true, if_false] at hok ⊢
        cases fr with
        | ok order tracking => simp at hok
        | err =>
          refine ⟨rfl, fun hc => ?_, fun hc => ?_, fun _ => ?_⟩
          · exact absurd hc (by decide)
          · exact absurd hc (by decide)
          · simp only [Agents.reasoningAgent, hcm]
            decide

/-- Concrete witness for the amended ok-false handling theorem: a
cancellation message without an order id proceeds factless and gets the
order-id clarifying question. -/
theorem factfetch_failure_nonfatal_questions_witness :
    (Agents.agentPipeline (some "please cancel") none none Agents.FetchResult.err).facts = [] ∧
    Agents.orderIdQuestion ∈
      (Agents.agentPipeline (some "please cancel") none none Agents.FetchResult.err).questions :=
  ⟨(factfetch_failure_nonfatal_questions (some "please cancel") none none Agents.FetchResult.err
      (by decide)).1,
   (factfetch_failure_nonfatal_questions (some "please cancel") none none Agents.FetchResult.err
      (by decide)).2.1 (by decide)⟩

/-- Claim C9 counterexample: when the fetched order object is present but its
order-id field is empty (and every other field is empty), the assembler
still emits the fact line for the order id, so a fact line is produced
for an empty field. -/
theorem orderid_line_emitted_for_empty_orderid :
    (Agents.dataFetchAgent true (some "12-34567-89012") (some "tok")
        (Agents.FetchResult.ok
          { orderId := "", orderFulfillmentStatus := "", orderPaymentStatus := "",
            creationDate := "", buyerUsername := none, shipToFullName := none, lineItems := [] }
          [])).fetched.order =
      some { orderId := "", status := "", paymentStatus := "", created := "",
             buyerUsername := "", shipToName := "", items := [] } ∧
    (Agents.reasoningAgent
        { agent := "classifier", intent := "tracking", confidence := 80, risk := "low",
          orderId := some "12-34567-89012", needsOrder := true, needsTracking := true,
          missing := [] }
        (Agents.dataFetchAgent true (some "12-34567-89012") (some "tok")
          (Agents.FetchResult.ok
            { orderId := "", orderFulfillmentStatus := "", orderPaymentStatus := "",
              creationDate := "", buyerUsername := none, shipToFullName := none, lineItems := [] }
            []))
        (Agents.riskAgent "tracking" "low")
        (Agents.profitProtectionAgent "tracking"
          (Agents.dataFetchAgent true (some "12-34567-89012") (some "tok")
            (Agents.FetchResult.ok
              { orderId := "", orderFulfillmentStatus := "", orderPaymentStatus := "",
                creationDate := "", buyerUsername := none, shipToFullName := none, lineItems := [] }
              [])).fetched)).facts = ["Order ID: "] := by
  refine ⟨by decide, by decide⟩

/-- Claim C9 (amended): when an order object is present the assembler emits
the order-id line unconditionally (even for an empty order id) and emits
the status, items and tracking lines only when those fields are
populated; with all of them empty the facts reduce to the lone order-id
line. -/
theorem fact_lines_guarded_except_orderid
    (c : Agents.ClassifierOut) (d : Agents.DataFetchOut) (r : Agents.RiskOut)
    (p : Agents.ProfitOut) (o : Agents.OrderInfo)
    (h : d.fetched.order = some o) :
    ((Agents.reasoningAgent c d r p).facts =
      ["Order ID: " ++ o.orderId] ++
      (if !(o.status == "") then ["Order status: " ++ o.status] else []) ++
      (if o.items.length != 0 then
        ["Items: " ++ String.intercalate "; "
          (o.items.map (fun i => toString i.qty ++ "× " ++ i.title))] else []) ++
      (match d.fetched.tracking.getD [] with
       | [] => []
       | t :: _ =>
         if !(t.carrier == "") || !(t.trackingNumber == "") then
           [String.mk (jsTrim ("Tracking: " ++ t.carrier ++ " " ++ t.trackingNumber).data)]
         else [])) ∧
    (o.status = "" → o.items = [] → d.fetched.tracking = some [] →
      (Agents.reasoningAgent c d r p).facts = ["Order ID: " ++ o.orderId]) := by
  constructor
  · unfold Agents.reasoningAgent
    dsimp only
    rw [h]
  · intro hs hi ht
    unfold Agents.reasoningAgent
    dsimp only
    rw [h]
    dsimp only
    rw [hs, hi, ht]
    rfl

/-- Concrete witness for the guarded fact-line theorem: with an order present
and empty status, items and tracking, the facts are exactly the order-id
line. -/
theorem fact_lines_guarded_except_orderid_witness :
    (Agents.reasoningAgent
        { agent := "classifier", intent := "general", confidence := 20, risk := "low",
          orderId := none, needsOrder := false, needsTracking := false, missing := [] }
        { agent := "data_fetch", ok := true,
          fetched := { order := some { orderId := "A1", status := "", paymentStatus := "",
                                       created := "", buyerUsername := "", shipToName := "",
                                       items := [] },
                       tracking := some [], error := false },
          missing := [] }
        { agent := "risk", risk := "low", constraints := [] }
        { agent := "profit_protection", guidance := [] }).facts = ["Order ID: " ++ "A1"] :=
  (fact_lines_guarded_except_orderid
    { agent := "classifier", intent := "general", confidence := 20, risk := "low",
      orderId := none, needsOrder := false, needsTracking := false, missing := [] }
    { agent := "data_fetch", ok := true,
      fetched := { order := some { orderId := "A1", status := "", paymentStatus := "",
                                   created := "", buyerUsername := "", shipToName := "",
                                   items := [] },
                   tracking := some [], error := false },
      missing := [] }
    { agent := "risk", risk := "low", constraints := [] }
    { agent := "profit_protection", guidance := [] }
    { orderId := "A1", status := "", paymentStatus := "", created := "", buyerUsername := "",
      shipToName := "", items := [] }
    rfl).2 rfl rfl rfl

/-- Code point of the ASCII lowercasing. -/
theorem toLower_toNat (c : Char) :
    (Char.toLower c).toNat = if 65 ≤ c.toNat ∧ c.toNat ≤ 90 then c.toNat + 32 else c.toNat := by
  unfold Char.toLower
  by_cases h : c.toNat ≥ 65 ∧ c.toNat ≤ 90
  · rw [if_pos h, if_pos ⟨h.1, h.2⟩]
    unfold Char.ofNat
    rw [dif_pos (Or.inl (by omega))]
    simp [Char.ofNatAux, Char.toNat, UInt32.toNat, BitVec.toNat_ofNatLt]
  · rw [if_neg h, if_neg (by omega)]

/-- ASCII lowercasing does not change word-character status. -/
theorem wordChar_toLower (c : Char) : wordChar (Char.toLower c) = wordChar c := by
  unfold wordChar
  rw [toLower_toNat c]
  by_cases h : 65 ≤ c.toNat ∧ c.toNat ≤ 90
  · rw [if_pos h]
    exact decide_eq_decide.mpr (by omega)
  · rw [if_neg h]

/-- A character matching a pattern character case-insensitively has the same
word-character status. -/
theorem wordChar_of_litChar {c p : Char} (h : (Char.toLower c == p) = true) :
    wordChar c = wordChar p := by
  have he : Char.toLower c = p := eq_of_beq h
  rw [← he, wordChar_toLower]

/-- wordCharQ through Option.map. -/
theorem wordCharQ_eq (o : Option Char) : wordCharQ o = (o.map wordChar).getD false := by
  cases o <;> rfl

/-- A nonempty pattern never matches the empty text. -/
theorem litMatch_ne_nil {p : Char} {ps : List Char} : litMatch (p :: ps) [] = false := rfl

/-- A matching pattern is no longer than the text. -/
theorem litMatch_length_le : ∀ (a s : List Char), litMatch a s = true → a.length ≤ s.length := by
  intro a
  induction a with
  | nil => intro s _; exact Nat.zero_le _
  | cons p ps ih =>
    intro s h
    cases s with
    | nil => exact absurd h (by simp [litMatch])
    | cons c cs =>
      simp only [litMatch, Bool.and_eq_true] at h
      have := ih cs h.2
      simp only [List.length_cons]
      omega

/-- Appending text beyond the pattern does not change a literal match. -/
theorem litMatch_append_of_le :
    ∀ (a x y : List Char), a.length ≤ x.length → litMatch a (x ++ y) = litMatch a x := by
  intro a
  induction a with
  | nil => intro x y _; rfl
  | cons p ps ih =>
    intro x y h
    cases x with
    | nil => simp at h
    | cons c cs =>
      simp only [List.cons_append, litMatch, List.append_eq]
      rw [ih cs y (by simpa using h)]

/-- Splitting a literal match across an append when the pattern is longer
than the first part. -/
theorem litMatch_append_split :
    ∀ (x a y : List Char), x.length < a.length →
      litMatch a (x ++ y) = (litMatch (a.take x.length) x && litMatch (a.drop x.length) y) := by
  intro x
  induction x with
  | nil =>
    intro a y _
    simp [litMatch]
  | cons c xs ih =>
    intro a y h
    cases a with
    | nil => simp at h
    | cons p ps =>
      simp only [List.cons_append, litMatch, List.length_cons, List.take_succ_cons,
        List.drop_succ_cons, List.append_eq]
      rw [ih ps y (by simpa using h)]
      rw [Bool.and_assoc]

/-- A literal match preserves the word-character profile of the matched
text. -/
theorem litMatch_wordChar_map :
    ∀ (a s : List Char), litMatch a s = true →
      (s.take a.length).map wordChar = a.map wordChar := by
  intro a
  induction a with
  | nil => intro s _; rfl
  | cons p ps ih =>
    intro s h
    cases s with
    | nil => exact absurd h (by simp [litMatch])
    | cons c cs =>
      simp only [litMatch, Bool.and_eq_true] at h
      simp only [List.length_cons, List.take_succ_cons, List.map_cons]
      rw [ih cs h.2, wordChar_of_litChar h.1]

/-- findM returns none exactly when no alternative fully matches. -/
theorem findM_eq_none_iff (pat : Rule) (prev : Option Char) (s : List Char) :
    findM pat prev s = none ↔ ∀ a ∈ pat.alts, predM pat prev s a = false := by
  unfold findM
  constructor
  · intro h a ha
    have := List.find?_eq_none.mp h a ha
    simpa using this
  · intro h
    exact List.find?_eq_none.mpr (fun a ha => by simp [h a ha])

/-- The match predicate only uses the word-character status of the context
character. -/
theorem predM_congr (pat : Rule) {prev prev' : Option Char}
    (h : wordCharQ prev = wordCharQ prev') (s a : List Char) :
    predM pat prev s a = predM pat prev' s a := by
  unfold predM bdry
  rw [h]

/-- findM only uses the word-character status of the context character. -/
theorem findM_congr (pat : Rule) {prev prev' : Option Char}
    (h : wordCharQ prev = wordCharQ prev') (s : List Char) :
    findM pat prev s = findM pat prev' s := by
  unfold findM
  congr 1
  funext a
  exact predM_congr pat h s a

/-- hasM only uses the word-character status of the context character. -/
theorem hasM_congr (pat : Rule) {prev prev' : Option Char}
    (h : wordCharQ prev = wordCharQ prev') (s : List Char) :
    hasM pat prev s = hasM pat prev' s := by
  cases s with
  | nil => rfl
  | cons c cs =>
    unfold hasM
    rw [findM_congr pat h]

/-- Context after a cons. -/
theorem prevAfter_cons (c : Char) (u : List Char) (prev : Option Char) :
    prevAfter (c :: u) prev = prevAfter u (some c) := by
  unfold prevAfter
  cases hu : u with
  | nil => rfl
  | cons d u' =>
    rw [List.getLast?_cons_cons]
    rfl

/-- Unfolding equation for hasM on a cons. -/
theorem hasM_cons (pat : Rule) (prev : Option Char) (c : Char) (cs : List Char) :
    hasM pat prev (c :: cs) = ((findM pat prev (c :: cs)).isSome || hasM pat (some c) cs) := rfl

/-- Unfolding equation for noStartIn on a cons. -/
theorem noStartIn_cons (pat : Rule) (prev : Option Char) (c : Char) (u v : List Char) :
    noStartIn pat prev (c :: u) v =
      (!(findM pat prev (c :: (u ++ v))).isSome && noStartIn pat (some c) u v) := rfl

/-- Splitting a full-text scan at an append point. -/
theorem hasM_append_iff (pat : Rule) :
    ∀ (u : List Char) (prev : Option Char) (v : List Char),
      hasM pat prev (u ++ v) = false ↔
        (noStartIn pat prev u v = true ∧ hasM pat (prevAfter u prev) v = false) := by
  intro u
  induction u with
  | nil =>
    intro prev v
    simp [noStartIn, prevAfter]
  | cons c u' ih =>
    intro prev v
    rw [List.cons_append, hasM_cons, noStartIn_cons, prevAfter_cons]
    cases hf : findM pat prev (c :: (u' ++ v)) with
    | some a =>
      simp [hf]
    | none =>
      simp only [hf, Option.isSome_none, Bool.false_or, Bool.not_false, Bool.true_and]
      exact ih (some c) v

/-- A clean text stays clean on any suffix, with the context carried
along. -/
theorem hasM_drop (pat : Rule) :
    ∀ (n : Nat) (s : List Char) (prev : Option Char), hasM pat prev s = false →
      hasM pat (prevAfter (s.take n) prev) (s.drop n) = false := by
  intro n
  induction n with
  | zero =>
    intro s prev h
    simpa [prevAfter] using h
  | succ m ih =>
    intro s prev h
    cases s with
    | nil => rfl
    | cons c cs =>
      simp only [hasM, Bool.or_eq_false_iff] at h
      simp only [List.take_succ_cons, List.drop_succ_cons, prevAfter_cons]
      exact ih cs (some c) h.2

/-- Unpacking the pattern shape check. -/
theorem patShape_facts {P : Rule} (h : patShapeOk P = true) :
    P.wb = true ∧ ∀ a ∈ P.alts, a ≠ [] ∧ wordCharQ a.head? = true ∧ wordCharQ a.getLast? = true := by
  unfold patShapeOk at h
  rw [Bool.and_eq_true, List.all_eq_true] at h
  refine ⟨h.1, fun a ha => ?_⟩
  have := h.2 a ha
  simp only [Bool.and_eq_true, Bool.not_eq_true', List.isEmpty_eq_false_iff_exists_mem] at this
  rcases this with ⟨⟨hne, hh⟩, hl⟩
  exact ⟨by rintro rfl; simp at hne, hh, hl⟩

/-- Unpacking the replacement shape check. -/
theorem repShape_facts {rep : List Char} (h : repShapeOk rep = true) :
    rep ≠ [] ∧ wordCharQ rep.head? = true ∧ wordCharQ rep.getLast? = true := by
  unfold repShapeOk at h
  simp only [Bool.and_eq_true, Bool.not_eq_true', List.isEmpty_eq_false_iff_exists_mem] at h
  rcases h with ⟨⟨hne, hh⟩, hl⟩
  exact ⟨by rintro rfl; simp at hne, hh, hl⟩

/-- A successful findM yields a member alternative whose predicate holds. -/
theorem findM_some_facts {pat : Rule} {prev : Option Char} {s a : List Char}
    (h : findM pat prev s = some a) :
    a ∈ pat.alts ∧ predM pat prev s a = true :=
  ⟨List.mem_of_find?_eq_some h, List.find?_some h⟩

/-- Components of a true match predicate under required boundaries. -/
theorem predM_parts {pat : Rule} {prev : Option Char} {s a : List Char}
    (hwb : pat.wb = true) (h : predM pat prev s a = true) :
    litMatch a s = true ∧ bdry prev s.head? = true ∧
      bdry ((s.take a.length).getLast?) ((s.drop a.length).head?) = true := by
  unfold predM at h
  rw [hwb] at h
  simpa [Bool.and_eq_true] using h

/-- The matched text portion has the word profile of the alternative, at its
last position. -/
theorem matched_last_word {a s : List Char} (h : litMatch a s = true) :
    wordCharQ ((s.take a.length).getLast?) = wordCharQ a.getLast? := by
  have hm := litMatch_wordChar_map a s h
  rw [wordCharQ_eq, wordCharQ_eq, ← List.getLast?_map, ← List.getLast?_map, hm]

/-- The matched text portion has the word profile of the alternative, at its
head. -/
theorem matched_head_word {a s : List Char} (h : litMatch a s = true) :
    wordCharQ ((s.take a.length).head?) = wordCharQ a.head? := by
  have hm := litMatch_wordChar_map a s h
  rw [wordCharQ_eq, wordCharQ_eq, ← List.head?_map, ← List.head?_map, hm]

/-- The head of the replacement scan output has the word status of the head
of the input. -/
theorem scan_head_wordChar (R : Rule) (hR : patShapeOk R = true)
    (hrep : repShapeOk R.rep = true) (prev : Option Char) (s : List Char) :
    wordCharQ ((replaceScan R prev s).head?) = wordCharQ s.head? := by
  cases s with
  | nil => rfl
  | cons c cs =>
    cases hf : findM R prev (c :: cs) with
    | none =>
      rw [replaceScan_cons_none _ _ _ _ hf]
      rfl
    | some a =>
      rw [replaceScan_cons_match _ _ _ _ _ hf]
      rcases findM_some_facts hf with ⟨ha, hp⟩
      have hlit : litMatch a (c :: cs) = true :=
        (predM_parts (patShape_facts hR).1 hp).1
      rcases repShape_facts hrep with ⟨hne, hh, -⟩
      rcases List.exists_cons_of_ne_nil hne with ⟨r0, rrest, hre⟩
      rw [hre]
      rw [hre] at hh
      have hhead : wordCharQ ((c :: cs).head?) = wordCharQ a.head? := by
        have := matched_head_word hlit
        rcases (patShape_facts hR).2 a ha with ⟨hane, -, -⟩
        rcases List.exists_cons_of_ne_nil hane with ⟨a0, arest, hae⟩
        rw [hae] at this ⊢
        simpa using this
      rw [List.cons_append]
      rcases (patShape_facts hR).2 a ha with ⟨-, haw, -⟩
      rw [hhead, haw]
      simpa using hh

/-- Walking a candidate match of P over the output of an R-replacement scan:
if a tail of an alternative of P matches the output at the current point,
then (unless the scan is replacing right here, which the tail check
forbids) the matched characters are copied input characters, so the same
tail matches the input, the matched output and input prefixes coincide,
and the first position after the match has the same word status in output
and input. -/
theorem walk_into_copy (P R : Rule) (hP : patShapeOk P = true)
    (hTail : noAltTailIntoRep P R.rep = true)
    (hR : patShapeOk R = true) (hrep : repShapeOk R.rep = true) :
    ∀ (s : List Char) (prevT : Option Char) (a : List Char), a ∈ P.alts →
      ∀ k : Nat, k < a.length →
      (0 < k ∨ findM R prevT s = none) →
      litMatch (a.drop k) (replaceScan R prevT s) = true →
      litMatch (a.drop k) s = true ∧
      (replaceScan R prevT s).take (a.length - k) = s.take (a.length - k) ∧
      wordCharQ (((replaceScan R prevT s).drop (a.length - k)).head?) =
        wordCharQ ((s.drop (a.length - k)).head?) := by
  intro s
  induction s with
  | nil =>
    intro prevT a ha k hk h0 hm
    rw [replaceScan_nil] at hm
    have hlen : (a.drop k).length = a.length - k := List.length_drop _ _
    have hne : a.drop k ≠ [] := by
      intro he
      rw [he] at hlen
      simp at hlen
      omega
    rcases List.exists_cons_of_ne_nil hne with ⟨b, tl, hbe⟩
    rw [hbe] at hm
    exact absurd hm (by simp [litMatch])
  | cons c cs ih =>
    intro prevT a ha k hk h0 hm
    cases hf : findM R prevT (c :: cs) with
    | some m =>
      have hkpos : 0 < k := by
        rcases h0 with h | h
        · exact h
        · rw [hf] at h
          exact absurd h (by simp)
      rw [replaceScan_cons_match _ _ _ _ _ hf] at hm
      unfold noAltTailIntoRep at hTail
      rw [List.all_eq_true] at hTail
      have hka := hTail a ha
      rw [List.all_eq_true] at hka
      have hk2 := hka k (List.mem_range.mpr hk)
      simp only [Bool.or_eq_true, beq_iff_eq, Bool.and_eq_true, Bool.not_eq_true',
        decide_eq_true_eq] at hk2
      rcases hk2 with h | ⟨hlen, hnm⟩
      · omega
      · rw [litMatch_append_of_le _ _ _ (by rw [List.length_drop]; exact hlen)] at hm
        rw [hnm] at hm
        exact absurd hm (by simp)
    | none =>
      rw [replaceScan_cons_none _ _ _ _ hf] at hm ⊢
      have hlen : (a.drop k).length = a.length - k := List.length_drop _ _
      have hne : a.drop k ≠ [] := by
        intro he
        rw [he] at hlen
        simp at hlen
        omega
      rcases List.exists_cons_of_ne_nil hne with ⟨b, tl, hbe⟩
      have htleq : a.drop (k + 1) = tl := by
        have : a.drop (k + 1) = (a.drop k).drop 1 := by
          rw [List.drop_drop]
        rw [this, hbe]
        rfl
      rw [hbe] at hm
      simp only [litMatch, Bool.and_eq_true] at hm
      rcases hm with ⟨hb, htl⟩
      cases htlnil : tl with
      | nil =>
        have hk1 : a.length = k + 1 := by
          have h2 : tl.length = a.length - (k + 1) := by
            rw [← htleq]
            exact List.length_drop _ _
          rw [htlnil] at h2
          simp at h2
          omega
        have hd1 : a.length - k = 1 := by omega
        refine ⟨?_, ?_, ?_⟩
        · rw [hbe, htlnil]
          simp [litMatch, hb]
        · rw [hd1]
          rfl
        · rw [hd1]
          simp only [List.drop_succ_cons, List.drop_zero]
          exact scan_head_wordChar R hR hrep (some c) cs
      | cons b2 tl2 =>
        have hk1 : k + 1 < a.length := by
          have h2 : tl.length = a.length - (k + 1) := by
            rw [← htleq]
            exact List.length_drop _ _
          rw [htlnil] at h2
          simp at h2
          omega
        rw [htlnil] at htl
        have htl' : litMatch (a.drop (k + 1)) (replaceScan R (some c) cs) = true := by
          rw [htleq, htlnil]
          exact htl
        rcases ih (some c) a ha (k + 1) hk1 (Or.inl (by omega)) htl' with ⟨g1, g2, g3⟩
        have hd1 : a.length - k = (a.length - (k + 1)) + 1 := by omega
        refine ⟨?_, ?_, ?_⟩
        · rw [hbe]
          simp only [litMatch, Bool.and_eq_true]
          refine ⟨hb, ?_⟩
          rw [← htleq]
          exact g1
        · rw [hd1]
          simp only [List.take_succ_cons]
          rw [g2]
        · rw [hd1]
          simp only [List.drop_succ_cons]
          exact g3

/-- Context after a nonempty chunk is its last character. -/
theorem prevAfter_ne_nil {u : List Char} (h : u ≠ []) (prev : Option Char) :
    prevAfter u prev = u.getLast? := by
  unfold prevAfter
  cases hg : u.getLast? with
  | none => exact absurd (List.getLast?_eq_none_iff.mp hg) h
  | some d => rfl

/-- Context after appending one character. -/
theorem prevAfter_concat (u : List Char) (c : Char) (prev : Option Char) :
    prevAfter (u ++ [c]) prev = some c := by
  unfold prevAfter
  rw [List.getLast?_concat]

/-- No match of a boundary-requiring pattern can start inside an inserted
replacement block that passes the start check, whatever text follows the
block. -/
theorem noStartIn_rep (P : Rule) (rep : List Char) (hwb : P.wb = true)
    (hStart : noAltStartInRep P rep = true) :
    ∀ (suf pre : List Char) (prev0 : Option Char) (v : List Char), pre ++ suf = rep →
      noStartIn P (prevAfter pre prev0) suf v = true := by
  intro suf
  induction suf with
  | nil =>
    intro pre prev0 v _
    rfl
  | cons c suf' ih =>
    intro pre prev0 v hps
    rw [noStartIn_cons, Bool.and_eq_true]
    have hlenrep : rep.length = pre.length + (suf'.length + 1) := by
      rw [← hps]
      simp
    constructor
    · have hnone : findM P (prevAfter pre prev0) (c :: (suf' ++ v)) = none := by
        rw [findM_eq_none_iff]
        intro a ha
        unfold noAltStartInRep at hStart
        rw [List.all_eq_true] at hStart
        have hj := hStart pre.length (List.mem_range.mpr (by omega))
        rw [List.all_eq_true] at hj
        have hja := hj a ha
        have hdrop : rep.drop pre.length = c :: suf' := by
          rw [← hps]
          exact List.drop_left pre (c :: suf')
        have htake : rep.take pre.length = pre := by
          rw [← hps]
          exact List.take_left pre (c :: suf')
        rw [hdrop, htake] at hja
        by_cases hle : a.length ≤ rep.length - pre.length
        · rw [if_pos hle] at hja
          rw [Bool.not_eq_true'] at hja
          unfold predM
          have hlm : litMatch a (c :: (suf' ++ v)) = false := by
            have : (c :: (suf' ++ v)) = (c :: suf') ++ v := by simp
            rw [this, litMatch_append_of_le a (c :: suf') v (by simp; omega), hja]
          rw [hlm]
          rfl
        · rw [if_neg hle] at hja
          simp only [Bool.or_eq_true, Bool.not_eq_true', Bool.and_eq_true,
            decide_eq_true_eq] at hja
          rcases hja with hja | ⟨⟨hjpos, hw1⟩, hw2⟩
          · unfold predM
            have hlm : litMatch a (c :: (suf' ++ v)) = false := by
              have he : (c :: (suf' ++ v)) = (c :: suf') ++ v := by simp
              rw [he, litMatch_append_split (c :: suf') a v (by simp; omega)]
              have hlen2 : (c :: suf').length = rep.length - pre.length := by
                simp
                omega
              rw [hlen2, hja]
              rfl
            rw [hlm]
            rfl
          · have hpre : pre ≠ [] := by
              intro he
              rw [he] at hjpos
              simp at hjpos
            unfold predM
            rw [hwb]
            have hprev : wordCharQ (prevAfter pre prev0) = true := by
              rw [prevAfter_ne_nil hpre]
              exact hw1
            have hb : bdry (prevAfter pre prev0) (c :: (suf' ++ v)).head? = false := by
              unfold bdry
              rw [hprev]
              simpa using hw2
            rw [hb]
            simp
      rw [hnone]
      rfl
    · have hps' : (pre ++ [c]) ++ suf' = rep := by
        rw [← hps]
        simp
      have := ih (pre ++ [c]) prev0 v hps'
      rw [prevAfter_concat] at this
      exact this

/-- Boundary evaluation only depends on word status. -/
theorem bdry_congr {x x' y y' : Option Char} (hx : wordCharQ x = wordCharQ x')
    (hy : wordCharQ y = wordCharQ y') : bdry x y = bdry x' y' := by
  unfold bdry
  rw [hx, hy]

/-- Dropping a positive count from a cons. -/
theorem drop_cons_of_pos (c : Char) (cs : List Char) {n : Nat} (h : 0 < n) :
    (c :: cs).drop n = cs.drop (n - 1) := by
  cases n with
  | zero => omega
  | succ j => simp

/-- Core argument shared by the self and preservation theorems: at a copied
position, a full match of P on the scan output transfers to a full match
of P on the input. -/
theorem predM_transfer (P R : Rule) (hPs : patShapeOk P = true)
    (hRs : patShapeOk R = true) (hrep : repShapeOk R.rep = true)
    (hTail : noAltTailIntoRep P R.rep = true)
    (c : Char) (cs : List Char) (prev : Option Char)
    (hf : findM R prev (c :: cs) = none)
    {a : List Char} (ha : a ∈ P.alts)
    (hpm : predM P prev (c :: replaceScan R (some c) cs) a = true) :
    predM P prev (c :: cs) a = true := by
  have hout : replaceScan R prev (c :: cs) = c :: replaceScan R (some c) cs :=
    replaceScan_cons_none R prev c cs hf
  rcases predM_parts (patShape_facts hPs).1 hpm with ⟨hlit, hb1, hb2⟩
  have hane : a ≠ [] := ((patShape_facts hPs).2 a ha).1
  have hapos : 0 < a.length := by
    cases a with
    | nil => exact absurd rfl hane
    | cons x xs => simp
  have hlit0 : litMatch (a.drop 0) (replaceScan R prev (c :: cs)) = true := by
    rw [List.drop_zero, hout]
    exact hlit
  rcases walk_into_copy P R hPs hTail hRs hrep (c :: cs) prev a ha 0 hapos (Or.inr hf) hlit0
    with ⟨g1, g2, g3⟩
  rw [List.drop_zero] at g1
  rw [Nat.sub_zero, hout] at g2 g3
  unfold predM
  rw [(patShape_facts hPs).1]
  have hb1' : bdry prev ((c :: cs).head?) = true := hb1
  have hb2' : bdry (((c :: cs).take a.length).getLast?)
      (((c :: cs).drop a.length).head?) = true := by
    rw [← g2]
    rw [bdry_congr rfl g3] at hb2
    exact hb2
  rw [g1, hb1', hb2']
  rfl

/-- Scanning the output of a self-replacement finds no further match of the
rule's own pattern. -/
theorem replace_self_clean_aux (P : Rule) (hPs : patShapeOk P = true)
    (hrep : repShapeOk P.rep = true)
    (hStart : noAltStartInRep P P.rep = true) (hTail : noAltTailIntoRep P P.rep = true) :
    ∀ (n : Nat) (s : List Char), s.length ≤ n → ∀ prev : Option Char,
      hasM P prev (replaceScan P prev s) = false := by
  intro n
  induction n with
  | zero =>
    intro s hs prev
    have : s = [] := List.length_eq_zero.mp (Nat.le_zero.mp hs)
    subst this
    rfl
  | succ m ih =>
    intro s hs prev
    cases s with
    | nil => rfl
    | cons c cs =>
      cases hf : findM P prev (c :: cs) with
      | some a =>
        rw [replaceScan_cons_match _ _ _ _ _ hf]
        rcases findM_some_facts hf with ⟨ha, hpm⟩
        have hane : a ≠ [] := ((patShape_facts hPs).2 a ha).1
        have hapos : 0 < a.length := by
          cases a with
          | nil => exact absurd rfl hane
          | cons x xs => simp
        rw [hasM_append_iff]
        constructor
        · have := noStartIn_rep P P.rep (patShape_facts hPs).1 hStart P.rep [] prev
            (replaceScan P (((c :: cs).take a.length).getLast?) (cs.drop (a.length - 1)))
            (by simp)
          simpa [prevAfter] using this
        · have hlit : litMatch a (c :: cs) = true :=
            (predM_parts (patShape_facts hPs).1 hpm).1
          have hdl : (cs.drop (a.length - 1)).length ≤ m := by
            have h1 : cs.length + 1 ≤ m + 1 := by simpa using hs
            have := List.length_drop (a.length - 1) cs
            omega
          have hrec := ih (cs.drop (a.length - 1)) hdl (((c :: cs).take a.length).getLast?)
          have hw1 : wordCharQ (prevAfter P.rep prev) = true := by
            rw [prevAfter_ne_nil (repShape_facts hrep).1]
            exact (repShape_facts hrep).2.2
          have hw2 : wordCharQ (((c :: cs).take a.length).getLast?) = true := by
            rw [matched_last_word hlit]
            exact ((patShape_facts hPs).2 a ha).2.2
          rw [hasM_congr P (hw1.trans hw2.symm)]
          exact hrec
      | none =>
        rw [replaceScan_cons_none _ _ _ _ hf]
        rw [hasM_cons, Bool.or_eq_false_iff]
        constructor
        · have hnone : findM P prev (c :: replaceScan P (some c) cs) = none := by
            rw [findM_eq_none_iff]
            intro a ha
            by_cases hpm : predM P prev (c :: replaceScan P (some c) cs) a = true
            · have := predM_transfer P P hPs hPs hrep hTail c cs prev hf ha hpm
              have hall := (findM_eq_none_iff P prev (c :: cs)).mp hf a ha
              rw [hall] at this
              exact absurd this (by simp)
            · simpa using hpm
          rw [hnone]
          rfl
        · exact ih cs (by simpa using hs) (some c)

/-- hasM of the own pattern on the output of a replacement scan is always
false, provided the shape and overlap checks pass. -/
theorem replace_self_clean (P : Rule) (hPs : patShapeOk P = true)
    (hrep : repShapeOk P.rep = true)
    (hStart : noAltStartInRep P P.rep = true) (hTail : noAltTailIntoRep P P.rep = true)
    (s : List Char) (prev : Option Char) :
    hasM P prev (replaceScan P prev s) = false :=
  replace_self_clean_aux P hPs hrep hStart hTail s.length s (Nat.le_refl _) prev

/-- Scanning the output of an R-replacement finds no match of a different
pattern P when the input had none, provided the shape and overlap checks
pass. -/
theorem replace_pres_clean_aux (P R : Rule) (hPs : patShapeOk P = true)
    (hRs : patShapeOk R = true) (hrep : repShapeOk R.rep = true)
    (hStart : noAltStartInRep P R.rep = true) (hTail : noAltTailIntoRep P R.rep = true) :
    ∀ (n : Nat) (s : List Char), s.length ≤ n → ∀ prev : Option Char,
      hasM P prev s = false → hasM P prev (replaceScan R prev s) = false := by
  intro n
  induction n with
  | zero =>
    intro s hs prev _
    have : s = [] := List.length_eq_zero.mp (Nat.le_zero.mp hs)
    subst this
    rfl
  | succ m ih =>
    intro s hs prev hin
    cases s with
    | nil => rfl
    | cons c cs =>
      rw [hasM_cons, Bool.or_eq_false_iff] at hin
      rcases hin with ⟨hinh, hint⟩
      cases hf : findM R prev (c :: cs) with
      | some a =>
        rw [replaceScan_cons_match _ _ _ _ _ hf]
        rcases findM_some_facts hf with ⟨ha, hpm⟩
        have hane : a ≠ [] := ((patShape_facts hRs).2 a ha).1
        have hapos : 0 < a.length := by
          cases a with
          | nil => exact absurd rfl hane
          | cons x xs => simp
        rw [hasM_append_iff]
        constructor
        · have := noStartIn_rep P R.rep (patShape_facts hPs).1 hStart R.rep [] prev
            (replaceScan R (((c :: cs).take a.length).getLast?) (cs.drop (a.length - 1)))
            (by simp)
          simpa [prevAfter] using this
        · have hlit : litMatch a (c :: cs) = true :=
            (predM_parts (patShape_facts hRs).1 hpm).1
          have hdl : (cs.drop (a.length - 1)).length ≤ m := by
            have h1 : cs.length + 1 ≤ m + 1 := by simpa using hs
            have := List.length_drop (a.length - 1) cs
            omega
          have htne : (c :: cs).take a.length ≠ [] := by
            intro he
            have := congrArg List.length he
            simp only [List.length_take, List.length_cons, List.length_nil] at this
            omega
          have hsuffix : hasM P (((c :: cs).take a.length).getLast?)
              (cs.drop (a.length - 1)) = false := by
            have hdropeq : (c :: cs).drop a.length = cs.drop (a.length - 1) :=
              drop_cons_of_pos c cs hapos
            have := hasM_drop P a.length (c :: cs) prev (by
              rw [hasM_cons, Bool.or_eq_false_iff]
              exact ⟨hinh, hint⟩)
            rw [prevAfter_ne_nil htne, hdropeq] at this
            exact this
          have hrec := ih (cs.drop (a.length - 1)) hdl (((c :: cs).take a.length).getLast?)
            hsuffix
          have hw1 : wordCharQ (prevAfter R.rep prev) = true := by
            rw [prevAfter_ne_nil (repShape_facts hrep).1]
            exact (repShape_facts hrep).2.2
          have hw2 : wordCharQ (((c :: cs).take a.length).getLast?) = true := by
            rw [matched_last_word hlit]
            exact ((patShape_facts hRs).2 a ha).2.2
          rw [hasM_congr P (hw1.trans hw2.symm)]
          exact hrec
      | none =>
        rw [replaceScan_cons_none _ _ _ _ hf]
        rw [hasM_cons, Bool.or_eq_false_iff]
        constructor
        · have hnone : findM P prev (c :: replaceScan R (some c) cs) = none := by
            rw [findM_eq_none_iff]
            intro a ha
            by_cases hpm : predM P prev (c :: replaceScan R (some c) cs) a = true
            · have := predM_transfer P R hPs hRs hrep hTail c cs prev hf ha hpm
              have hall := (findM_eq_none_iff P prev (c :: cs)).mp
                (by rcases hx : findM P prev (c :: cs) with _ | b
                    · rfl
                    · rw [hx] at hinh
                      simp at hinh) a ha
              rw [hall] at this
              exact absurd this (by simp)
            · simpa using hpm
          rw [hnone]
          rfl
        · exact ih cs (by simpa using hs) (some c) hint

/-- Preservation form of the replacement-cleanliness theorem. -/
theorem replace_pres_clean (P R : Rule) (hPs : patShapeOk P = true)
    (hRs : patShapeOk R = true) (hrep : repShapeOk R.rep = true)
    (hStart : noAltStartInRep P R.rep = true) (hTail : noAltTailIntoRep P R.rep = true)
    (s : List Char) (prev : Option Char) (hin : hasM P prev s = false) :
    hasM P prev (replaceScan R prev s) = false :=
  replace_pres_clean_aux P R hPs hRs hrep hStart hTail s.length s (Nat.le_refl _) prev hin

/-- A clean text is left unchanged by the replacement scan. -/
theorem replace_id_of_clean (ru : Rule) :
    ∀ (s : List Char) (prev : Option Char), hasM ru prev s = false →
      replaceScan ru prev s = s := by
  intro s
  induction s with
  | nil => intro prev _; rfl
  | cons c cs ih =>
    intro prev h
    rw [hasM_cons, Bool.or_eq_false_iff] at h
    have hf : findM ru prev (c :: cs) = none := by
      rcases hx : findM ru prev (c :: cs) with _ | b
      · rfl
      · rw [hx] at h
        exact absurd h.1 (by simp)
    rw [replaceScan_cons_none _ _ _ _ hf, ih (some c) h.2]

/-- Whitespace characters are not word characters. -/
theorem jsWS_not_word {c : Char} (h : jsWS c = true) : wordChar c = false := by
  unfold jsWS at h
  simp only [Bool.or_eq_true, beq_iff_eq, Bool.and_eq_true, decide_eq_true_eq] at h
  have hr : (8192 ≤ c.toNat ∧ c.toNat ≤ 8202) ∨ (c.toNat = 32 ∨ c.toNat = 9 ∨ c.toNat = 10 ∨
      c.toNat = 13 ∨ c.toNat = 11 ∨ c.toNat = 12 ∨ c.toNat = 160 ∨ c.toNat = 65279 ∨
      c.toNat = 5760 ∨ c.toNat = 8232 ∨ c.toNat = 8233 ∨ c.toNat = 8239 ∨ c.toNat = 8287 ∨
      c.toNat = 12288) := by
    rcases h with
      ((((((((((((((h | h) | h) | h) | h) | h) | h) | h) | h) | h) | h) | h) | h) | h) | h)
    all_goals first
      | (left; exact ⟨h.1, h.2⟩)
      | (right; subst h; decide)
  unfold wordChar
  rw [decide_eq_false_iff_not]
  rcases hr with ⟨h1, h2⟩ | h
  · omega
  · omega


/-- The head of a dropWhile result does not satisfy the predicate. -/
theorem head_dropWhile_not (p : Char → Bool) :
    ∀ (l : List Char) (c : Char), (l.dropWhile p).head? = some c → p c = false := by
  intro l
  induction l with
  | nil => intro c h; simp at h
  | cons d t ih =>
    intro c h
    by_cases hp : p d = true
    · rw [List.dropWhile_cons_of_pos hp] at h
      exact ih c h
    · rw [List.dropWhile_cons_of_neg hp] at h
      simp only [List.head?_cons, Option.some.injEq] at h
      rw [← h]
      simpa using hp

/-- dropWhile of a list whose head fails the predicate is the identity. -/
theorem dropWhile_of_head_not (p : Char → Bool) (l : List Char)
    (h : ∀ c, l.head? = some c → p c = false) : l.dropWhile p = l := by
  cases l with
  | nil => rfl
  | cons d t =>
    have := h d rfl
    rw [List.dropWhile_cons_of_neg (by simp [this])]

/-- dropWhile is idempotent. -/
theorem dropWhile_idem (p : Char → Bool) (l : List Char) :
    (l.dropWhile p).dropWhile p = l.dropWhile p :=
  dropWhile_of_head_not p _ (fun c hc => head_dropWhile_not p l c hc)

/-- JavaScript trim is idempotent. -/
theorem jsTrim_idem (s : List Char) : jsTrim (jsTrim s) = jsTrim s := by
  unfold jsTrim
  by_cases hrne : ((s.dropWhile jsWS).reverse.dropWhile jsWS) = []
  · rw [hrne]
    rfl
  · have hlast : ((s.dropWhile jsWS).reverse.dropWhile jsWS).getLast? =
        (s.dropWhile jsWS).head? := by
      have hsplit : (s.dropWhile jsWS).reverse.takeWhile jsWS ++
          (s.dropWhile jsWS).reverse.dropWhile jsWS = (s.dropWhile jsWS).reverse :=
        List.takeWhile_append_dropWhile jsWS _
      have h2 := List.getLast?_append_of_ne_nil ((s.dropWhile jsWS).reverse.takeWhile jsWS) hrne
      rw [hsplit] at h2
      rw [← h2, List.getLast?_reverse]
    have hstep1 : ((s.dropWhile jsWS).reverse.dropWhile jsWS).reverse.dropWhile jsWS =
        ((s.dropWhile jsWS).reverse.dropWhile jsWS).reverse := by
      apply dropWhile_of_head_not
      intro c hc
      rw [List.head?_reverse, hlast] at hc
      exact head_dropWhile_not jsWS s c hc
    rw [hstep1, List.reverse_reverse, dropWhile_idem]

/-- Decomposition of a list around its trim: whitespace, trim, whitespace. -/
theorem jsTrim_decomp (s : List Char) :
    ∃ u w : List Char, (∀ c ∈ u, jsWS c = true) ∧ (∀ c ∈ w, jsWS c = true) ∧
      s = u ++ (jsTrim s ++ w) := by
  refine ⟨s.takeWhile jsWS, ((s.dropWhile jsWS).reverse.takeWhile jsWS).reverse, ?_, ?_, ?_⟩
  · intro c hc
    exact List.mem_takeWhile_imp hc
  · intro c hc
    rw [List.mem_reverse] at hc
    exact List.mem_takeWhile_imp hc
  · unfold jsTrim
    have h1 : s.takeWhile jsWS ++ s.dropWhile jsWS = s := List.takeWhile_append_dropWhile jsWS s
    have h2 : ((s.dropWhile jsWS).reverse.dropWhile jsWS).reverse ++
        ((s.dropWhile jsWS).reverse.takeWhile jsWS).reverse = s.dropWhile jsWS := by
      rw [← List.reverse_append, List.takeWhile_append_dropWhile, List.reverse_reverse]
    rw [h2, h1]

/-- A true match predicate includes a true literal match. -/
theorem predM_lit {P : Rule} {prev : Option Char} {s a : List Char}
    (h : predM P prev s a = true) : litMatch a s = true := by
  unfold predM at h
  simp only [Bool.and_eq_true] at h
  exact h.1

/-- Stripping trailing whitespace cannot create a match. -/
theorem hasM_strip_ws_right (P : Rule) :
    ∀ (x : List Char) (prev : Option Char) (w : List Char), (∀ c ∈ w, jsWS c = true) →
      hasM P prev (x ++ w) = false → hasM P prev x = false := by
  intro x
  induction x with
  | nil => intro prev w _ _; rfl
  | cons c xs ih =>
    intro prev w hw h
    rw [List.cons_append, hasM_cons, Bool.or_eq_false_iff] at h
    rw [hasM_cons, Bool.or_eq_false_iff]
    refine ⟨?_, ih (some c) w hw h.2⟩
    have hnone : findM P prev (c :: xs) = none := by
      rw [findM_eq_none_iff]
      intro a ha
      have hall : predM P prev (c :: (xs ++ w)) a = false := by
        rcases hx : findM P prev (c :: (xs ++ w)) with _ | b
        · exact (findM_eq_none_iff P prev _).mp hx a ha
        · rw [hx] at h
          exact absurd h.1 (by simp)
      by_cases hp : predM P prev (c :: xs) a = true
      · have hlit : litMatch a (c :: xs) = true := predM_lit hp
        have hle : a.length ≤ (c :: xs).length := litMatch_length_le a (c :: xs) hlit
        have hlit2 : litMatch a (c :: (xs ++ w)) = true := by
          have he : c :: (xs ++ w) = (c :: xs) ++ w := by simp
          rw [he, litMatch_append_of_le a (c :: xs) w hle]
          exact hlit
        have hfull : predM P prev (c :: (xs ++ w)) a = true := by
          by_cases hwb : P.wb = true
          · rcases predM_parts hwb hp with ⟨-, hb1, hb2⟩
            have htake : (c :: (xs ++ w)).take a.length = (c :: xs).take a.length := by
              have he : c :: (xs ++ w) = (c :: xs) ++ w := by simp
              rw [he, List.take_append_of_le_length hle]
            have hdropw : wordCharQ (((c :: (xs ++ w)).drop a.length).head?) =
                wordCharQ (((c :: xs).drop a.length).head?) := by
              have he : c :: (xs ++ w) = (c :: xs) ++ w := by simp
              rw [he, List.drop_append_of_le_length hle]
              cases hd : (c :: xs).drop a.length with
              | nil =>
                simp only [List.nil_append]
                cases hwh : w with
                | nil => rfl
                | cons e es =>
                  have hwse : jsWS e = true := hw e (by rw [hwh]; simp)
                  simp only [List.head?_cons, List.head?_nil]
                  show wordChar e = false
                  exact jsWS_not_word hwse
              | cons d ds => rfl
            unfold predM
            rw [hwb, hlit2, htake]
            have hb2' : bdry (((c :: xs).take a.length).getLast?)
                (((c :: (xs ++ w)).drop a.length).head?) = true := by
              rw [bdry_congr rfl hdropw]
              exact hb2
            rw [hb2']
            have hb1' : bdry prev ((c :: (xs ++ w)).head?) = true := hb1
            rw [hb1']
            rfl
          · unfold predM
            rw [Bool.not_eq_true] at hwb
            rw [hwb, hlit2]
            rfl
        rw [hall] at hfull
        exact absurd hfull (by simp)
      · simpa using hp
    rw [hnone]
    rfl

/-- Stripping leading whitespace cannot create a match of a pattern whose
context is a non-word position. -/
theorem hasM_strip_ws_left (P : Rule) :
    ∀ (u : List Char) (p : Option Char), wordCharQ p = false → (∀ c ∈ u, jsWS c = true) →
      ∀ v : List Char, hasM P p (u ++ v) = false → hasM P none v = false := by
  intro u
  induction u with
  | nil =>
    intro p hp _ v h
    rw [hasM_congr P (show wordCharQ p = wordCharQ none from hp)] at h
    exact h
  | cons c u' ih =>
    intro p hp hu v h
    rw [List.cons_append, hasM_cons, Bool.or_eq_false_iff] at h
    have hc : jsWS c = true := hu c (by simp)
    exact ih (some c) (jsWS_not_word hc) (fun d hd => hu d (by simp [hd])) v h.2

/-- A text clean of a pattern stays clean after a JavaScript trim. -/
theorem hasM_jsTrim_clean (P : Rule) (s : List Char)
    (h : hasM P none s = false) : hasM P none (jsTrim s) = false := by
  rcases jsTrim_decomp s with ⟨u, w, hu, hw, hdec⟩
  rw [hdec] at h
  have h2 := hasM_strip_ws_left P u none rfl hu (jsTrim s ++ w) h
  exact hasM_strip_ws_right P (jsTrim s) none w hw h2

set_option maxRecDepth 100000 in
/-- Claim C7 counterexample: the safety filter's own off-platform
substitution can assemble a fresh off-platform phrase.  Filtering
"email mwhatsapp" replaces "whatsapp" by "eBay messages", producing
"email meBay messages", which contains the trigger "email me". -/
theorem filter_output_can_contain_offplatform_phrase :
    safetyFilter (chars "email mwhatsapp") = chars "email meBay messages" ∧
    hasM offPlatformRule none (safetyFilter (chars "email mwhatsapp")) = true :=
  ⟨by decide, by decide⟩

set_option maxRecDepth 100000 in
/-- Claim C7 (amended): the safety filter is deterministic and total (it is a
pure Lean function), idempotent on drafts free of all three trigger patterns,
and its output never contains a fault-admission or absolute-guarantee phrase;
the off-platform conjunct of the original claim is refuted separately. -/
theorem filter_idempotent_and_scrubs_admissions_guarantees (draft : String) :
    ((hasM offPlatformRule none draft.data = false ∧
      hasM admissionRule none draft.data = false ∧
      hasM guaranteeRule none draft.data = false) →
      (safetyCheckAgent (safetyCheckAgent draft).reply).reply =
        (safetyCheckAgent draft).reply) ∧
    hasM admissionRule none ((safetyCheckAgent draft).reply).data = false ∧
    hasM guaranteeRule none ((safetyCheckAgent draft).reply).data = false := by
  have hreply : ((safetyCheckAgent draft).reply).data = safetyFilter draft.data := rfl
  refine ⟨?_, ?_, ?_⟩
  · rintro ⟨h1, h2, h3⟩
    have t1 : hasM offPlatformRule none (jsTrim draft.data) = false :=
      hasM_jsTrim_clean _ _ h1
    have t2 : hasM admissionRule none (jsTrim draft.data) = false :=
      hasM_jsTrim_clean _ _ h2
    have t3 : hasM guaranteeRule none (jsTrim draft.data) = false :=
      hasM_jsTrim_clean _ _ h3
    have hid : safetyFilter draft.data = jsTrim draft.data := by
      unfold safetyFilter
      rw [replace_id_of_clean _ _ _ t1, replace_id_of_clean _ _ _ t2,
          replace_id_of_clean _ _ _ t3]
    have hlist : safetyFilter (((safetyCheckAgent draft).reply).data) =
        safetyFilter draft.data := by
      rw [hreply, hid]
      unfold safetyFilter
      rw [jsTrim_idem]
      rw [replace_id_of_clean _ _ _ t1, replace_id_of_clean _ _ _ t2,
          replace_id_of_clean _ _ _ t3]
    show String.mk (safetyFilter (((safetyCheckAgent draft).reply).data)) =
        String.mk (safetyFilter draft.data)
    rw [hlist]
  · rw [hreply]
    show hasM admissionRule none
        (replaceScan guaranteeRule none (replaceScan admissionRule none
          (replaceScan offPlatformRule none (jsTrim draft.data)))) = false
    exact replace_pres_clean admissionRule guaranteeRule (by decide) (by decide)
      (by decide) (by decide) (by decide) _ none
      (replace_self_clean admissionRule (by decide) (by decide) (by decide)
        (by decide) _ none)
  · rw [hreply]
    show hasM guaranteeRule none
        (replaceScan guaranteeRule none (replaceScan admissionRule none
          (replaceScan offPlatformRule none (jsTrim draft.data)))) = false
    exact replace_self_clean guaranteeRule (by decide) (by decide) (by decide)
      (by decide) _ none

set_option maxRecDepth 100000 in
/-- Witness for claim C7: the trigger-free draft "Hello friend" is a fixed
point of the filter after one pass, and its filtered form is clean of
admission and guarantee phrases. -/
theorem filter_idempotent_and_scrubs_admissions_guarantees_witness :
    (safetyCheckAgent (safetyCheckAgent "Hello friend").reply).reply =
      (safetyCheckAgent "Hello friend").reply ∧
    hasM admissionRule none ((safetyCheckAgent "Hello friend").reply).data = false ∧
    hasM guaranteeRule none ((safetyCheckAgent "Hello friend").reply).data = false := by
  have h := filter_idempotent_and_scrubs_admissions_guarantees "Hello friend"
  exact ⟨h.1 ⟨by decide, by decide, by decide⟩, h.2.1, h.2.2⟩
